import Mathlib

/-!
Verification of the DnevnikRu formatter core (DnevnikFormatter.py and the
DnevnikFormatterAsyncV2.py variant) against its specification.

Shallow-embedding conventions:
* Python dicts are association lists in insertion order; a dict
  comprehension is a left fold of insert-or-replace, so later bindings for
  the same key win, as in CPython.
* Raw API records are structures; a field read with `d['k']` at every use
  site is a plain field, a field read with `d.get('k', default)` anywhere
  is an `Option` (`none` = key absent).
* `str()` applied to a raw id is the identity on the embedded string ids;
  `str(None)` is the literal "None".
* Machine floats are modelled by exact rationals; `round(x, n)` is
  round-half-to-even at scale `10^n`.
* `datetime` values are records of calendar fields; comparison and
  differences go through an exact civil-calendar microsecond count
  (`dtMicro`), which agrees with CPython on all valid datetimes.
* Fallible code returns `Except String`; a raised-and-not-caught
  exception is an `Except.error`.
-/

namespace Dnevnik

/-! ## Python-style dictionaries (insertion-ordered association lists) -/

abbrev pyDict (α : Type) := List (String × α)

def pyContains {α : Type} (d : pyDict α) (k : String) : Bool :=
  d.any (fun p => p.1 == k)

def pyLookup {α : Type} (d : pyDict α) (k : String) : Option α :=
  (d.find? (fun p => p.1 == k)).map (·.2)

/-- `d[k] = v`: replace in place if the key exists, else append. -/
def pyInsert {α : Type} (d : pyDict α) (k : String) (v : α) : pyDict α :=
  if pyContains d k then d.map (fun p => if p.1 == k then (k, v) else p)
  else d ++ [(k, v)]

/-- Dict comprehension: build from pairs, later bindings overwrite. -/
def pyDictOf {α : Type} (l : List (String × α)) : pyDict α :=
  l.foldl (fun d kv => pyInsert d kv.1 kv.2) []

/-- `d.update(other)`. -/
def pyUpdate {α : Type} (d other : pyDict α) : pyDict α :=
  other.foldl (fun d kv => pyInsert d kv.1 kv.2) d

/-- `defaultdict(list)`: `d[k].append(v)`. -/
def pyDictAppend {α : Type} (d : pyDict (List α)) (k : String) (v : α) :
    pyDict (List α) :=
  if pyContains d k then
    d.map (fun p => if p.1 == k then (p.1, p.2 ++ [v]) else p)
  else d ++ [(k, [v])]

/-- `defaultdict(int)`: `d[k] += c`. -/
def pyDictAddInt (d : pyDict Int) (k : String) (c : Int) : pyDict Int :=
  if pyContains d k then
    d.map (fun p => if p.1 == k then (p.1, p.2 + c) else p)
  else d ++ [(k, c)]

/-! ## Python-style strings and numbers

All string operations are written over the character list `String.data`
with structural recursion, so that concrete instances evaluate inside the
kernel. -/

/-- Code-point lexicographic `<=` on character lists (CPython string
    comparison). -/
def charListLe : List Char → List Char → Bool
  | [], _ => true
  | _ :: _, [] => false
  | a :: as, b :: bs =>
    if a.toNat < b.toNat then true
    else if b.toNat < a.toNat then false
    else charListLe as bs

/-- Code-point lexicographic `<` on character lists. -/
def charListLt : List Char → List Char → Bool
  | [], [] => false
  | [], _ :: _ => true
  | _ :: _, [] => false
  | a :: as, b :: bs =>
    if a.toNat < b.toNat then true
    else if b.toNat < a.toNat then false
    else charListLt as bs

def pyStrLe (s t : String) : Bool := charListLe s.data t.data

def pyStrLt (s t : String) : Bool := charListLt s.data t.data

/-- Split a character list on a separator character (the list of parts is
    never empty). -/
def splitOnChar (sep : Char) : List Char → List (List Char)
  | [] => [[]]
  | c :: rest =>
    match splitOnChar sep rest with
    | [] => [[]]
    | g :: gs => if c = sep then [] :: g :: gs else (c :: g) :: gs

/-- `s.split(sep)` for a one-character separator (also how the embedding
    reads the fixed-layout strptime formats). -/
def charSplit (sep : Char) (s : String) : List String :=
  (splitOnChar sep s.data).map String.mk

/-- `s.startswith(p)`. -/
def strStartsWith (s p : String) : Bool := p.data.isPrefixOf s.data

/-- `str.lower()` restricted to ASCII letters and the Cyrillic range the
    data uses (А..Я, Ё). -/
def pyCharLower (c : Char) : Char :=
  if 'A' ≤ c ∧ c ≤ 'Z' then Char.ofNat (c.toNat + 32)
  else if c.toNat ≥ 0x410 ∧ c.toNat ≤ 0x42F then Char.ofNat (c.toNat + 0x20)
  else if c.toNat = 0x401 then Char.ofNat 0x451
  else c

def pyLower (s : String) : String := String.mk (s.data.map pyCharLower)

/-- `str.strip()` (whitespace trim at both ends). -/
def pyStrip (s : String) : String :=
  String.mk
    (((s.data.dropWhile Char.isWhitespace).reverse.dropWhile
        Char.isWhitespace).reverse)

/-- `x or ''` on an optional string field: `None`/missing/empty → `""`. -/
def pyOrEmpty (o : Option String) : String := o.getD ""

/-- `s.isdigit()` (ASCII digits). -/
def pyIsDigitStr (s : String) : Bool := !s.data.isEmpty && s.data.all Char.isDigit

/-- `s.replace('.', '', 1)`: remove only the first dot. -/
def removeFirstDot (s : String) : String :=
  match charSplit '.' s with
  | [] => s
  | [_] => s
  | a :: b :: rest => a ++ String.intercalate "." (b :: rest)

/-- The numeric-grade test `s.replace('.', '', 1).isdigit()`. -/
def pyNumCheck (s : String) : Bool := pyIsDigitStr (removeFirstDot s)

def digitsToNat (s : String) : Nat :=
  s.data.foldl (fun n c => n * 10 + (c.toNat - '0'.toNat)) 0

/-- `float(s)` for strings accepted by `pyNumCheck` (digits with at most
    one dot). -/
def parseDecimalQ (s : String) : ℚ :=
  match charSplit '.' s with
  | [a] => (digitsToNat a : ℚ)
  | [a, b] => (digitsToNat a : ℚ) + (digitsToNat b : ℚ) / (10 ^ b.length)
  | _ => 0

/-- Round-half-to-even to an integer, as CPython `round`. -/
def roundHalfEven (q : ℚ) : ℤ :=
  let f := ⌊q⌋
  let r := q - f
  if r < 1/2 then f
  else if 1/2 < r then f + 1
  else if f % 2 = 0 then f else f + 1

/-- `round(x, 2)` as an exact rational. -/
def pyRound2 (x : ℚ) : ℚ := (roundHalfEven (x * 100) : ℚ) / 100

/-- `str(round(x, 1))` for a non-negative `x`. -/
def pyRound1Str (x : ℚ) : String :=
  let n := (roundHalfEven (x * 10)).toNat
  toString (n / 10) ++ "." ++ toString (n % 10)

/-- `statistics.mean` (callers guard against the empty list). -/
def qMean (l : List ℚ) : ℚ := l.sum / l.length

/-- `max(l)` on strings, `None` when empty (ties keep the first). -/
def pyMaxStr (l : List String) : Option String :=
  l.foldl (fun acc s =>
    match acc with
    | none => some s
    | some m => if pyStrLt m s then some s else some m) none

/-! ## The datetime model -/

structure PyDateTime where
  year : Nat
  month : Nat
  day : Nat
  hour : Nat
  minute : Nat
  second : Nat
  usec : Nat
deriving DecidableEq

def isLeap (y : Nat) : Bool := (y % 4 == 0 && y % 100 != 0) || y % 400 == 0

def daysInMonth (y m : Nat) : Nat :=
  if m = 2 then (if isLeap y then 29 else 28)
  else if m = 4 ∨ m = 6 ∨ m = 9 ∨ m = 11 then 30
  else 31

/-- Days since 1970-01-01 of a civil date (proleptic Gregorian). -/
def daysFromCivil (y m d : Nat) : Int :=
  let y2 := if m ≤ 2 then y - 1 else y
  let era := y2 / 400
  let yoe := y2 % 400
  let mp := (m + 9) % 12
  let doy := (153 * mp + 2) / 5 + d - 1
  let doe := yoe * 365 + yoe / 4 - yoe / 100 + doy
  ((era * 146097 + doe : Nat) : Int) - 719468

def dateNum (t : PyDateTime) : Int := daysFromCivil t.year t.month t.day

/-- Exact microseconds since the epoch; datetime comparison and
    `(a - b).total_seconds()` comparisons both go through this (the exact
    microsecond count orders datetimes and their distances exactly as the
    second count does). -/
def dtMicro (t : PyDateTime) : Int :=
  ((dateNum t) * 86400 + t.hour * 3600 + t.minute * 60 + t.second) * 1000000
    + t.usec

def dtLe (a b : PyDateTime) : Prop := dtMicro a ≤ dtMicro b

instance (a b : PyDateTime) : Decidable (dtLe a b) := by
  unfold dtLe; infer_instance

/-- `abs((a - b).total_seconds())`, in exact microseconds. -/
def dtDiffAbs (a b : PyDateTime) : Nat := (dtMicro a - dtMicro b).natAbs

/-- `a.date() <= b.date()`. -/
def dateOnlyLe (a b : PyDateTime) : Prop := dateNum a ≤ dateNum b

instance (a b : PyDateTime) : Decidable (dateOnlyLe a b) := by
  unfold dateOnlyLe; infer_instance

/-! ## strptime for the two timestamp formats -/

def parseField (s : String) (maxLen : Nat) : Option Nat :=
  if s.length = 0 ∨ s.length > maxLen ∨ ¬ (s.data.all Char.isDigit) then none
  else some (digitsToNat s)

def mkDateTime (y mo d h mi s us : Nat) : Option PyDateTime :=
  if 1 ≤ y ∧ y ≤ 9999 ∧ 1 ≤ mo ∧ mo ≤ 12 ∧ 1 ≤ d ∧ d ≤ daysInMonth y mo
      ∧ h ≤ 23 ∧ mi ≤ 59 ∧ s ≤ 59 then
    some ⟨y, mo, d, h, mi, s, us⟩
  else none

/-- `datetime.strptime(s, '%Y-%m-%dT%H:%M:%S')`, `none` = ValueError. -/
def parseYmdHms (str : String) : Option PyDateTime :=
  match charSplit 'T' str with
  | [ds, ts] =>
    match charSplit '-' ds, charSplit ':' ts with
    | [ys, ms, dds], [hs, mis, ss] => do
      let y ← parseField ys 4
      let mo ← parseField ms 2
      let d ← parseField dds 2
      let h ← parseField hs 2
      let mi ← parseField mis 2
      let s ← parseField ss 2
      mkDateTime y mo d h mi s 0
    | _, _ => none
  | _ => none

def parseMicro (fs : String) : Option Nat :=
  if fs.length = 0 ∨ fs.length > 6 ∨ ¬ (fs.data.all Char.isDigit) then none
  else some (digitsToNat fs * 10 ^ (6 - fs.length))

/-- `datetime.strptime(s, '%Y-%m-%dT%H:%M:%S.%f')`, `none` = ValueError. -/
def parseYmdHmsFrac (str : String) : Option PyDateTime :=
  match charSplit 'T' str with
  | [ds, ts] =>
    match charSplit '-' ds, charSplit ':' ts with
    | [ys, ms, dds], [hs, mis, sfs] =>
      match charSplit '.' sfs with
      | [ss, fs] => do
        let y ← parseField ys 4
        let mo ← parseField ms 2
        let d ← parseField dds 2
        let h ← parseField hs 2
        let mi ← parseField mis 2
        let s ← parseField ss 2
        let us ← parseMicro fs
        mkDateTime y mo d h mi s us
      | _ => none
    | _, _ => none
  | _ => none

def pad2 (n : Nat) : String := if n < 10 then "0" ++ toString n else toString n

def pad4 (n : Nat) : String :=
  if n < 10 then "000" ++ toString n
  else if n < 100 then "00" ++ toString n
  else if n < 1000 then "0" ++ toString n
  else toString n

/-- `date.strftime('%Y-%m-%d')`. -/
def formatYmd (t : PyDateTime) : String :=
  pad4 t.year ++ "-" ++ pad2 t.month ++ "-" ++ pad2 t.day

/-- `date.strftime('%d.%m.%Y')`. -/
def formatDmy (t : PyDateTime) : String :=
  pad2 t.day ++ "." ++ pad2 t.month ++ "." ++ pad4 t.year

/-- `str(x)` on an optional raw field: a missing key gives the Python
    `None`, whose `str` is the literal "None". -/
def pyStrOpt (o : Option String) : String := o.getD "None"

/-! ## The reporting-period resolver (`_get_quarter_period_id`) -/

structure RawPeriodRec where
  type : Option String
  number : Option Int
  start : Option String
  finish : Option String
  year : Option Int
  id : Option String
  name : Option String
deriving DecidableEq

structure PeriodData where
  id : String
  start : PyDateTime
  finish : PyDateTime
  name : String
deriving DecidableEq

/-- The try/except ladder over the two timestamp formats: both dates with
    the fractionless format, else both with the fractional one, else the
    record is skipped. -/
def parsePeriodDates (s f : String) : Option (PyDateTime × PyDateTime) :=
  match parseYmdHms s, parseYmdHms f with
  | some a, some b => some (a, b)
  | _, _ =>
    match parseYmdHmsFrac s, parseYmdHmsFrac f with
    | some a, some b => some (a, b)
    | _, _ => none

/-- A period's effective academic year: start year from September on,
    otherwise the finish year. -/
def effectiveYear (start finish : PyDateTime) : Int :=
  if start.month ≥ 9 then (start.year : Int) else (finish.year : Int)

/-- The per-record filter of the resolver loop: supported type, matching
    ordinal, parsable dates, and (when given) a matching study year. -/
def checkCandidate (allowed : List String) (typeMap : String → Option Int)
    (sy : Option Int) (p : RawPeriodRec) : Option PeriodData :=
  let ptype := p.type.getD ""
  if ptype ∉ allowed then none
  else if some (p.number.getD (-1)) ≠ typeMap ptype then none
  else
    match parsePeriodDates (p.start.getD "") (p.finish.getD "") with
    | none => none
    | some (sd, fd) =>
      let pd : PeriodData := ⟨pyStrOpt p.id, sd, fd, p.name.getD "Неизвестный период"⟩
      match sy with
      | none => some pd
      | some y =>
        if effectiveYear sd fd ≠ y ∧ effectiveYear sd fd ≠ y - 1 then none
        else some pd

/-- `start_date <= current_date <= finish_date`. -/
def periodContains (now : PyDateTime) (pd : PeriodData) : Prop :=
  dtLe pd.start now ∧ dtLe now pd.finish

instance (now : PyDateTime) (pd : PeriodData) : Decidable (periodContains now pd) := by
  unfold periodContains; infer_instance

/-- The running `(closest_period, min_date_diff)` update: replace only on
    a strictly smaller `abs((start - now).total_seconds())`. -/
def updateClosest (acc : Option (PeriodData × Nat)) (pd : PeriodData)
    (now : PyDateTime) : Option (PeriodData × Nat) :=
  match acc with
  | none => some (pd, dtDiffAbs pd.start now)
  | some (c, m) =>
    if dtDiffAbs pd.start now < m then some (pd, dtDiffAbs pd.start now)
    else some (c, m)

/-- The resolver loop: return the first candidate containing the current
    moment, else remember the candidate with the strictly smallest
    `abs((start - now).total_seconds())`. -/
def resolveLoop (check : RawPeriodRec → Option PeriodData) (now : PyDateTime) :
    List RawPeriodRec → Option (PeriodData × Nat) → Option PeriodData
  | [], acc => acc.map (·.1)
  | p :: rest, acc =>
    match check p with
    | none => resolveLoop check now rest acc
    | some pd =>
      if periodContains now pd then some pd
      else resolveLoop check now rest (updateClosest acc pd now)

def syncTypes : List String := ["Quarter", "Semester"]

/-- `quarter_to_number` of DnevnikFormatter.py. -/
def syncTypeMap (q : Int) : String → Option Int :=
  fun t => pyLookup [("Quarter", q - 1), ("Semester", if q = 1 ∨ q = 2 then 0 else 1)] t

def v2Types : List String := ["Quarter", "Semester", "Trimester", "Module"]

/-- `quarter_to_number` of DnevnikFormatterAsyncV2.py. -/
def v2TypeMap (q : Int) : String → Option Int :=
  fun t => pyLookup [("Quarter", q - 1), ("Semester", if q = 1 ∨ q = 2 then 0 else 1),
                     ("Trimester", q - 1), ("Module", q - 1)] t

/-- `_get_quarter_period_id` of DnevnikFormatter.py (selection result;
    the caller-facing value is the `(id, start, finish)` projection). -/
def resolveSync (q : Int) (sy : Option Int) (now : PyDateTime)
    (ps : List RawPeriodRec) : Option PeriodData :=
  if q = 1 ∨ q = 2 ∨ q = 3 ∨ q = 4 then
    resolveLoop (checkCandidate syncTypes (syncTypeMap q) sy) now ps none
  else none

/-- `_get_quarter_period_id` of DnevnikFormatterAsyncV2.py. -/
def resolveV2 (q : Int) (sy : Option Int) (now : PyDateTime)
    (ps : List RawPeriodRec) : Option PeriodData :=
  if q = 1 ∨ q = 2 ∨ q = 3 ∨ q = 4 ∨ q = 5 ∨ q = 6 then
    resolveLoop (checkCandidate v2Types (v2TypeMap q) sy) now ps none
  else none

/-- The selection policy claimed of the resolver, relative to a candidate
    filter: `none` exactly when no record passes the filter; any result is
    a candidate; a candidate containing the current moment is preferred
    whenever one exists; otherwise the result minimises the absolute
    start-time distance over all candidates. -/
def SelectionPolicy (check : RawPeriodRec → Option PeriodData) (now : PyDateTime)
    (ps : List RawPeriodRec) (result : Option PeriodData) : Prop :=
  (result = none ↔ ps.filterMap check = []) ∧
  (∀ pd, result = some pd → pd ∈ ps.filterMap check) ∧
  ((∃ c ∈ ps.filterMap check, periodContains now c) →
    ∃ pd, result = some pd ∧ periodContains now pd) ∧
  ((∀ c ∈ ps.filterMap check, ¬ periodContains now c) →
    ∀ pd, result = some pd →
      ∀ c ∈ ps.filterMap check, dtDiffAbs pd.start now ≤ dtDiffAbs c.start now)

/-! ## Raw schedule records (`/persons/{}/groups/{}/schedules` shape) -/

structure RawSubjectRec where
  id : String
  name : String
deriving DecidableEq

structure RawPersonRec where
  id : String
  shortName : String
  fullName : Option String
deriving DecidableEq

structure RawTeacherRec where
  person : RawPersonRec
deriving DecidableEq

structure RawHomeworkRec where
  id : String
  type : Option String
  text : Option String
  files : List String
  isImportant : Option Bool
  sentDate : Option String
deriving DecidableEq

structure RawWorkRec where
  id : String
  workType : Option String
deriving DecidableEq

structure RawWorkTypeRec where
  id : String
  name : String
deriving DecidableEq

/-- A `lessonLogEntries` element (`lesson_str`, `person_str`, `status`). -/
structure RawLogEntryRec where
  lesson : String
  person : String
  status : String
deriving DecidableEq

/-- A day-scoped `marks` element. -/
structure RawDayMarkRec where
  work : String
  person : String
  value : Option String
  mood : Option String
  lesson : Option String
  date : Option String
  workType : Option String
deriving DecidableEq

structure RawFileRec where
  id : String
  name : Option String
  downloadUrl : Option String
deriving DecidableEq

structure RawLessonRec where
  id : Option String
  subjectId : Option String
  number : Option Int
  teachers : List String
  floor : Option String
  building : Option String
  place : Option String
  title : Option String
  hours : Option String
  status : Option String
  works : List String
  date : Option String
  subjectName : Option String
deriving DecidableEq

structure RawDayRec where
  date : Option String
  subjects : List RawSubjectRec
  teachers : List RawTeacherRec
  homeworks : List RawHomeworkRec
  works : List RawWorkRec
  workTypes : List RawWorkTypeRec
  lessonLogEntries : List RawLogEntryRec
  marks : List RawDayMarkRec
  files : List RawFileRec
  lessons : List RawLessonRec
deriving DecidableEq

structure RawScheduleRec where
  days : List RawDayRec
deriving DecidableEq

/-! ## The schedule-day reconciler (`_get_formatted_schedule_day`) -/

structure TeacherInfo where
  shortName : String
  fullName : String
  subjects : String
  email : String
  position : String
deriving DecidableEq

structure WorkView where
  work : String
deriving DecidableEq

structure MarkDetail where
  value : String
  work_type : String
  mood : String
  lesson_title : String
deriving DecidableEq

structure LessonView where
  time : String
  subject : String
  homework : String
  files : List String
  title : String
  teacher : String
  mark_details : List MarkDetail
  classroom : String
  lesson_id : String
  works : List WorkView
  lesson_number : Int
  lesson_status : String
  attendance : String
  is_important : Bool
  sent_date : Option String
deriving DecidableEq

/-- The five day-scoped lookup tables plus logs/marks/files. -/
structure DayTables where
  subjects : pyDict String
  teachers : pyDict String
  homeworks : pyDict RawHomeworkRec
  works : pyDict RawWorkRec
  workTypes : pyDict String
  lessonLogs : pyDict String
  marks : pyDict RawDayMarkRec
  files : pyDict RawFileRec
deriving DecidableEq

def buildDayTables (personId : String) (day : RawDayRec) : DayTables where
  subjects := pyDictOf (day.subjects.map fun s => (s.id, s.name))
  teachers := pyDictOf (day.teachers.map fun t => (t.person.id, t.person.shortName))
  homeworks := pyDictOf (day.homeworks.map fun w => (w.id, w))
  works := pyDictOf (day.works.map fun w => (w.id, w))
  workTypes := pyDictOf (day.workTypes.map fun wt => (wt.id, wt.name))
  lessonLogs := pyDictOf ((day.lessonLogEntries.filter
    (fun l => l.person == personId)).map fun l => (l.lesson, l.status))
  marks := pyDictOf ((day.marks.filter
    (fun m => m.person == personId)).map fun m => (m.work, m))
  files := pyDictOf (day.files.map fun f => (f.id, f))

/-- Insert-if-absent merge of a day's subject table into the global
    subject cache. -/
def mergeSubjectsIfAbsent (cache : pyDict String) (subjects : pyDict String) :
    pyDict String :=
  subjects.foldl
    (fun c kv => if pyContains c kv.1 then c else pyInsert c kv.1 kv.2) cache

def teacherInfoOfRaw (t : RawTeacherRec) : TeacherInfo where
  shortName := t.person.shortName
  fullName := t.person.fullName.getD ""
  subjects := "Неизвестно"
  email := ""
  position := "Неизвестно"

/-- Insert-if-absent merge of a day's raw teachers into the global
    teacher cache. -/
def mergeTeachersIfAbsent (cache : pyDict TeacherInfo)
    (ts : List RawTeacherRec) : pyDict TeacherInfo :=
  ts.foldl
    (fun c t =>
      if pyContains c t.person.id then c
      else pyInsert c t.person.id (teacherInfoOfRaw t)) cache

def hwPlaceholders : List String := ["нет", "нет задания", "-", "."]

/-- The homework text one Workitem contributes: nothing unless it is
    homework-typed with a non-blank, non-placeholder stripped text. -/
def homeworkTextOf (hw : RawHomeworkRec) : Option String :=
  if hw.type ≠ some "Homework" then none
  else
    let text := pyStrip (pyOrEmpty hw.text)
    if text ≠ "" ∧ pyLower text ∉ hwPlaceholders then some text else none

/-- The homework texts kept for a lesson: homework-typed Workitems whose
    stripped text is non-blank and not a placeholder. -/
def collectHomeworkTexts (tables : DayTables) (workIds : List String) :
    List String :=
  workIds.filterMap (fun wid =>
    (pyLookup tables.homeworks wid).bind homeworkTextOf)

/-- The "name (url)" homework file strings of a lesson (before the
    set-dedup step). -/
def collectHomeworkFiles (tables : DayTables) (workIds : List String) :
    List String :=
  (workIds.map (fun wid =>
    match pyLookup tables.homeworks wid with
    | none => []
    | some hw =>
      if hw.type ≠ some "Homework" then []
      else hw.files.filterMap (fun fid =>
        (pyLookup tables.files fid).map (fun f =>
          f.name.getD "Файл" ++ " (" ++ f.downloadUrl.getD "" ++ ")")))).flatten

def homeworkImportant (tables : DayTables) (workIds : List String) : Bool :=
  workIds.any (fun wid =>
    match pyLookup tables.homeworks wid with
    | none => false
    | some hw =>
      if hw.type ≠ some "Homework" then false else hw.isImportant.getD false)

def homeworkSentDate (tables : DayTables) (workIds : List String) :
    Option String :=
  pyMaxStr (workIds.filterMap (fun wid =>
    match pyLookup tables.homeworks wid with
    | none => none
    | some hw =>
      if hw.type ≠ some "Homework" then none
      else match hw.sentDate with
        | none => none
        | some s => if s ≠ "" then some s else none))

/-- `work_types.get(id, self._work_types_cache.get(id, 'Неизвестный тип'))`. -/
def workTypeName (wtCache : pyDict String) (tables : DayTables)
    (wtid : String) : String :=
  ((pyLookup tables.workTypes wtid).or (pyLookup wtCache wtid)).getD
    "Неизвестный тип"

def collectLessonWorks (wtCache : pyDict String) (tables : DayTables)
    (workIds : List String) : List WorkView :=
  workIds.filterMap (fun wid =>
    (pyLookup tables.works wid).map (fun w =>
      ⟨workTypeName wtCache tables (w.workType.getD "0")⟩))

def collectMarkDetails (wtCache : pyDict String) (tables : DayTables)
    (workIds : List String) (lessonTitle : String) : List MarkDetail :=
  workIds.filterMap (fun wid =>
    (pyLookup tables.marks wid).map (fun m =>
      let wtid := ((pyLookup tables.works wid).map
        (fun w => w.workType.getD "0")).getD "0"
      { value := m.value.getD ""
        work_type := workTypeName wtCache tables wtid
        mood := m.mood.getD "Нет"
        lesson_title := lessonTitle }))

/-- Classroom string from building/place/floor. -/
def classroomString (building place floor : Option String) : String :=
  let c0 := pyStrip (building.getD "Не указан" ++ " " ++ place.getD "Не указан")
  let c1 := if c0 = "Не указан Не указан" then "Не указан" else c0
  let f := floor.getD ""
  if f ≠ "" then c1 ++ ", этаж " ++ f else c1

/-- One normalized lesson record (the loop body after the duplicate and
    missing-subject skips). -/
def buildLessonView (wtCache : pyDict String) (tables : DayTables)
    (lesson : RawLessonRec) : LessonView :=
  let lessonId := lesson.id.getD "0"
  let subjectId := lesson.subjectId.getD "0"
  let subjectName := (pyLookup tables.subjects subjectId).getD "Неизвестный предмет"
  let joined := String.intercalate ", "
    (lesson.teachers.map (fun t => (pyLookup tables.teachers t).getD "Неизвестно"))
  let teacherName := if joined = "" then "Неизвестно" else joined
  let lessonTitle :=
    let t0 := lesson.title.getD subjectName
    if t0 = "" then subjectName else t0
  let texts := collectHomeworkTexts tables lesson.works
  let filesL := collectHomeworkFiles tables lesson.works
  let texts2 := if texts = [] ∧ filesL = [] then ["Нет задания"] else texts
  { time := lesson.hours.getD "Неизвестное время"
    subject := subjectName
    homework := String.intercalate "\n" texts2
    files := filesL.eraseDups
    title := lessonTitle
    teacher := teacherName
    mark_details := collectMarkDetails wtCache tables lesson.works lessonTitle
    classroom := classroomString lesson.building lesson.place lesson.floor
    lesson_id := lessonId
    works := collectLessonWorks wtCache tables lesson.works
    lesson_number := lesson.number.getD 0
    lesson_status := lesson.status.getD "Неизвестно"
    attendance := (pyLookup tables.lessonLogs lessonId).getD "Присутствовал"
    is_important := homeworkImportant tables lesson.works
    sent_date := homeworkSentDate tables lesson.works }

/-- The per-lesson loop: duplicate-id suppression, missing-subject skip,
    teacher-cache merge, record construction. -/
def processLessons (wtCache : pyDict String) (tables : DayTables)
    (dayTeachers : List RawTeacherRec) :
    List RawLessonRec → List String → pyDict TeacherInfo →
    List LessonView × List String × pyDict TeacherInfo
  | [], seen, tc => ([], seen, tc)
  | l :: rest, seen, tc =>
    let lid := l.id.getD "0"
    if lid ∈ seen then processLessons wtCache tables dayTeachers rest seen tc
    else
      let seen2 := lid :: seen
      if pyLookup tables.subjects (l.subjectId.getD "0") = none then
        processLessons wtCache tables dayTeachers rest seen2 tc
      else
        let tc2 := mergeTeachersIfAbsent tc dayTeachers
        let r := processLessons wtCache tables dayTeachers rest seen2 tc2
        (buildLessonView wtCache tables l :: r.1, r.2)

/-- The per-day loop: filter to the requested date, build day tables,
    merge subjects, process lessons. -/
def processDays (wtCache : pyDict String) (personId : String) (ds : String) :
    List RawDayRec → List String → pyDict String → pyDict TeacherInfo →
    List LessonView × List String × pyDict String × pyDict TeacherInfo
  | [], seen, sc, tc => ([], seen, sc, tc)
  | day :: rest, seen, sc, tc =>
    if ¬ strStartsWith (day.date.getD "") ds then
      processDays wtCache personId ds rest seen sc tc
    else
      let tables := buildDayTables personId day
      let sc2 := mergeSubjectsIfAbsent sc tables.subjects
      let r1 := processLessons wtCache tables day.teachers day.lessons seen tc
      let r2 := processDays wtCache personId ds rest r1.2.1 sc2 r1.2.2
      (r1.1 ++ r2.1, r2.2)

/-- The formatter's mutable state touched by the reconciler. -/
structure FmtState where
  scheduleCache : pyDict (List LessonView)
  subjectCache : pyDict String
  teacherCache : pyDict TeacherInfo
  workTypesCache : pyDict String
deriving DecidableEq

/-- The upstream gateway as seen by `_get_formatted_schedule_day`:
    `error` = an exception raised by the raw schedule query. -/
structure SEnv where
  getSchedule : PyDateTime → Except String RawScheduleRec

/-- `_get_formatted_schedule_day`: result, updated state, and whether an
    upstream query was issued. -/
def getFormattedScheduleDay (env : SEnv) (personId : String) (st : FmtState)
    (date : PyDateTime) : List LessonView × FmtState × Bool :=
  let ds := formatYmd date
  match pyLookup st.scheduleCache ds with
  | some cached => (cached, st, false)
  | none =>
    match env.getSchedule date with
    | .error _ =>
      ([], { st with scheduleCache := pyInsert st.scheduleCache ds [] }, true)
    | .ok sched =>
      if sched.days.isEmpty then
        ([], { st with scheduleCache := pyInsert st.scheduleCache ds [] }, true)
      else
        let r := processDays st.workTypesCache personId ds sched.days []
          st.subjectCache st.teacherCache
        let sorted := List.insertionSort
          (fun a b => a.lesson_number ≤ b.lesson_number) r.1
        (sorted,
          { st with
            scheduleCache := pyInsert st.scheduleCache ds sorted
            subjectCache := r.2.2.1
            teacherCache := r.2.2.2 }, true)

/-- A concrete "current moment" for resolver instances. -/
def c1Now : PyDateTime := ⟨2024, 9, 20, 12, 0, 0, 0⟩

/-- A raw Quarter record for the first quarter of 2024/25. -/
def c1QuarterPeriod : RawPeriodRec :=
  ⟨some "Quarter", some 0, some "2024-09-02T00:00:00",
   some "2024-10-25T23:59:59", some 2024, some "101", some "1 четверть"⟩

/-- A raw Trimester record for the first trimester of 2024/25. -/
def c1TrimesterPeriod : RawPeriodRec :=
  ⟨some "Trimester", some 0, some "2024-09-02T00:00:00",
   some "2024-11-30T23:59:59", some 2024, some "201", some "1 триместр"⟩

/-! ## `get_formatted_marks` (per-period mark ledger) -/

structure FMarkView where
  lesson_date : String
  mark_date : String
  value : String
  work_type : String
  mood : String
  lesson_title : String
deriving DecidableEq

/-- Accumulated state of the first loop of `get_formatted_marks`; `err`
    records a raised-and-uncaught exception. -/
structure CollectMarks where
  err : Option String
  workTypes : pyDict String
  lessons : pyDict RawLessonRec
  allowed : List String
  marks : List RawDayMarkRec
  subjCache : pyDict String
deriving DecidableEq

/-- The inner lesson loop of the collection phase: index the lesson by its
    (required) id, record its subject as allowed, and merge the subject
    into the cache if absent. -/
def collectLessonsStep : CollectMarks → List RawLessonRec → CollectMarks
  | a, [] => a
  | a, lesson :: ls =>
    match lesson.id with
    | none => { a with err := some "KeyError: id" }
    | some lid =>
      let sid := lesson.subjectId.getD "0"
      collectLessonsStep
        { a with
          lessons := pyInsert a.lessons lid lesson
          allowed := if sid ∈ a.allowed then a.allowed else a.allowed ++ [sid]
          subjCache :=
            if pyContains a.subjCache sid then a.subjCache
            else pyInsert a.subjCache sid
              (lesson.subjectName.getD "Неизвестный предмет") } ls

/-- The per-day collection phase of `get_formatted_marks`; the day-date
    parse is not guarded, so an unparsable date aborts with an error. -/
def collectMarksData (personId : String) (startD endD : PyDateTime) :
    List RawDayRec → CollectMarks → CollectMarks
  | [], acc => acc
  | day :: rest, acc =>
    match parseYmdHms (day.date.getD "1970-01-01T00:00:00") with
    | none =>
      { acc with err := some "ValueError: time data does not match format" }
    | some dd =>
      if dateOnlyLe startD dd ∧ dateOnlyLe dd endD then
        let wts := pyUpdate acc.workTypes
          (pyDictOf (day.workTypes.map (fun w => (w.id, w.name))))
        let a2 := collectLessonsStep { acc with workTypes := wts } day.lessons
        match a2.err with
        | some _ => a2
        | none =>
          let ms2 := a2.marks ++ day.marks.filter (fun m => m.person == personId)
          collectMarksData personId startD endD rest { a2 with marks := ms2 }
      else collectMarksData personId startD endD rest acc

/-- `day.get('date', ...)` of the variable leaked from the first loop: the
    last day of the feed. -/
def lastDayDateFallback (days : List RawDayRec) : String :=
  ((days.getLast?).bind (fun d => d.date)).getD "1970-01-01T00:00:00"

def buildFMark (workTypes : pyDict String) (lessonOpt : Option RawLessonRec)
    (lessonDate markDate : PyDateTime) (m : RawDayMarkRec) : FMarkView where
  lesson_date := formatDmy lessonDate
  mark_date := formatDmy markDate
  value := m.value.getD "Нет оценки"
  work_type := (pyLookup workTypes (m.workType.getD "0")).getD "Неизвестно"
  mood := m.mood.getD "Нет"
  lesson_title := (lessonOpt.bind (fun ld => ld.title)).getD "Неизвестно"

/-- The second loop of `get_formatted_marks`: the lesson-date parse is
    guarded (skip on failure) but the mark-date parse is not (error). -/
def formatMarksLoop (cm : CollectMarks) (startD endD : PyDateTime)
    (fallback : String) :
    List RawDayMarkRec → pyDict (List FMarkView) →
    Except String (pyDict (List FMarkView))
  | [], out => .ok out
  | m :: ms, out =>
    let lessonOpt := pyLookup cm.lessons (m.lesson.getD "0")
    let sidOpt : Option String :=
      match lessonOpt with
      | none => none
      | some ld =>
        match ld.subjectId with
        | none => none
        | some sid => if sid ≠ "" then some sid else none
    match sidOpt with
    | none => formatMarksLoop cm startD endD fallback ms out
    | some sid =>
      if sid ∉ cm.allowed ∨ ¬ pyContains cm.subjCache sid then
        formatMarksLoop cm startD endD fallback ms out
      else
        let subjectName := (pyLookup cm.subjCache sid).getD "Неизвестный предмет"
        match parseYmdHms ((lessonOpt.bind (fun ld => ld.date)).getD fallback) with
        | none => formatMarksLoop cm startD endD fallback ms out
        | some lessonDate =>
          if ¬ (dateOnlyLe startD lessonDate ∧ dateOnlyLe lessonDate endD) then
            formatMarksLoop cm startD endD fallback ms out
          else
            match parseYmdHmsFrac (m.date.getD "1970-01-01T00:00:00.000000") with
            | none => .error "ValueError: time data does not match format"
            | some markDate =>
              formatMarksLoop cm startD endD fallback ms
                (pyDictAppend out subjectName
                  (buildFMark cm.workTypes lessonOpt lessonDate markDate m))

/-- The upstream gateway as seen by range queries. -/
structure MEnv where
  getScheduleRange : PyDateTime → PyDateTime → Except String RawScheduleRec

def emptyCollectMarks (subjCache : pyDict String) : CollectMarks :=
  ⟨none, [], [], [], [], subjCache⟩

/-- `get_formatted_marks`: the result (or the exception that escapes) and
    the subject cache after the collection phase. -/
def getFormattedMarks (env : MEnv) (personId : String)
    (subjCache : pyDict String) (startD : PyDateTime)
    (endDOpt : Option PyDateTime) :
    Except String (pyDict (List FMarkView)) × pyDict String :=
  let endD := endDOpt.getD startD
  match env.getScheduleRange startD endD with
  | .error _ => (.ok [], subjCache)
  | .ok sched =>
    if sched.days.isEmpty then (.ok [], subjCache)
    else
      let cm := collectMarksData personId startD endD sched.days
        (emptyCollectMarks subjCache)
      match cm.err with
      | some e => (.error e, cm.subjCache)
      | none =>
        match formatMarksLoop cm startD endD (lastDayDateFallback sched.days)
            cm.marks [] with
        | .error e => (.error e, cm.subjCache)
        | .ok out =>
          (.ok (out.map (fun p => (p.1, List.insertionSort
            (fun a b => pyStrLe a.mark_date b.mark_date = true) p.2))),
           cm.subjCache)

/-! ## `get_formatted_final_marks` (per-subject quarter ledger) -/

/-- A record of `get_person_subject_marks`. -/
structure RawSubjMark where
  value : Option String
deriving DecidableEq

/-- The record emitted per subject (`название предмета` / `оценки` /
    `средний балл`). -/
structure FinalView where
  name : String
  grades : List String
  average : String
deriving DecidableEq

/-- Accumulated state of the active-subject collection of
    `get_formatted_final_marks` (lines 1257-1272); the day-date parse is
    unguarded, so `err` records the escaping ValueError. -/
structure CollectActive where
  err : Option String
  active : List String
  subjCache : pyDict String
deriving DecidableEq

def collectActiveSubjects (startD finishD : PyDateTime) :
    List RawDayRec → CollectActive → CollectActive
  | [], acc => acc
  | day :: rest, acc =>
    match parseYmdHms (day.date.getD "1970-01-01T00:00:00") with
    | none =>
      { acc with err := some "ValueError: time data does not match format" }
    | some dd =>
      if dateOnlyLe startD dd ∧ dateOnlyLe dd finishD then
        let acc2 := day.lessons.foldl (fun a lesson =>
          let sid := lesson.subjectId.getD "0"
          let a1 := { a with active :=
            if sid ∈ a.active then a.active else a.active ++ [sid] }
          day.subjects.foldl (fun a2 subject =>
            let subjName := pyStrip subject.name
            if subject.id ≠ "" ∧ subjName ≠ "" ∧
                ¬ pyContains a2.subjCache subject.id then
              { a2 with subjCache := pyInsert a2.subjCache subject.id subjName }
            else a2) a1) acc
        collectActiveSubjects startD finishD rest acc2
      else collectActiveSubjects startD finishD rest acc

/-- The gateway as seen by `get_formatted_final_marks`. -/
structure FEnv where
  periods : Except String (List RawPeriodRec)
  getScheduleRange : PyDateTime → PyDateTime → Except String RawScheduleRec
  subjMarks : String → String → Except String (List RawSubjMark)

/-- The grade strings kept: values passing the numeric test. -/
def numericGradeStrings (ms : List RawSubjMark) : List String :=
  ms.filterMap (fun m =>
    if pyNumCheck (m.value.getD "") then some (m.value.getD "") else none)

/-- One subject's final-marks record. -/
def mkFinalView (env : FEnv) (personId : String) (subjCache : pyDict String)
    (sid : String) : FinalView :=
  let grades := numericGradeStrings
    (match env.subjMarks personId sid with
      | .error _ => []
      | .ok ms => ms)
  { name := (pyLookup subjCache sid).getD "Неизвестный предмет"
    grades := grades
    average :=
      if ¬ grades.isEmpty then pyRound1Str (qMean (grades.map parseDecimalQ))
      else "Нет оценок" }

/-- `get_formatted_final_marks`. -/
def getFormattedFinalMarks (env : FEnv) (personId : String)
    (subjCache : pyDict String) (quarter : Int) (studyYear : Option Int)
    (now : PyDateTime) : Except String (List FinalView) × pyDict String :=
  if ¬ (quarter = 1 ∨ quarter = 2 ∨ quarter = 3 ∨ quarter = 4) then
    (.error "ValueError: Номер четверти должен быть от 1 до 4", subjCache)
  else
    match (match env.periods with
      | .error _ => none
      | .ok ps => resolveSync quarter studyYear now ps) with
    | none => (.ok [], subjCache)
    | some pd =>
      let sched := match env.getScheduleRange pd.start pd.finish with
        | .error _ => ({ days := [] } : RawScheduleRec)
        | .ok s => s
      let ca := collectActiveSubjects pd.start pd.finish sched.days
        ⟨none, [], subjCache⟩
      match ca.err with
      | some e => (.error e, ca.subjCache)
      | none =>
        let active :=
          if ca.active.isEmpty then ca.subjCache.map (fun p => p.1)
          else ca.active
        let recs := active.filterMap (fun sid =>
          if ¬ pyContains ca.subjCache sid then none
          else some (mkFinalView env personId ca.subjCache sid))
        (.ok (List.insertionSort (fun a b => pyStrLe a.name b.name = true) recs),
         ca.subjCache)

/-! ## `get_formatted_schedule` (single date or range) -/

inductive ScheduleResult where
  | single : List LessonView → ScheduleResult
  | range : pyDict (List LessonView) → ScheduleResult
deriving DecidableEq

/-- `current_date + timedelta(days=1)` on the calendar fields. -/
def nextDay (t : PyDateTime) : PyDateTime :=
  if t.day < daysInMonth t.year t.month then { t with day := t.day + 1 }
  else if t.month < 12 then { t with month := t.month + 1, day := 1 }
  else { t with year := t.year + 1, month := 1, day := 1 }

/-- The `while current_date <= end_date` loop, run on a fuel bound. -/
def scheduleRangeLoop (env : SEnv) (personId : String) :
    Nat → PyDateTime → PyDateTime → FmtState → pyDict (List LessonView) →
    pyDict (List LessonView) × FmtState
  | 0, _, _, st, out => (out, st)
  | fuel + 1, cur, endD, st, out =>
    if dtLe cur endD then
      let r := getFormattedScheduleDay env personId st cur
      scheduleRangeLoop env personId fuel (nextDay cur) endD r.2.1
        (pyInsert out (formatYmd cur) r.1)
    else (out, st)

/-- `get_formatted_schedule`: raises only when `end_date < start_date`. -/
def getFormattedSchedule (env : SEnv) (personId : String) (st : FmtState)
    (startD : PyDateTime) (endDOpt : Option PyDateTime) :
    Except String (ScheduleResult × FmtState) :=
  match endDOpt with
  | none =>
    let r := getFormattedScheduleDay env personId st startD
    .ok (.single r.1, r.2.1)
  | some endD =>
    if dtMicro endD < dtMicro startD then
      .error "ValueError: end_date не может быть раньше start_date"
    else
      let r := scheduleRangeLoop env personId
        ((dateNum endD - dateNum startD).toNat + 2) startD endD st []
      .ok (.range r.1, r.2)

/-! ## `get_subject_stats` (grade histogram) -/

structure HistMarkRec where
  value : Option String
  count : Option Int
deriving DecidableEq

structure MarkNumberRec where
  marks : List HistMarkRec
deriving DecidableEq

structure HistWorkRec where
  markNumbers : List MarkNumberRec
deriving DecidableEq

structure HistogramRec where
  works : List HistWorkRec
deriving DecidableEq

structure HEnv where
  periods : Except String (List RawPeriodRec)
  subjHistogram : String → Int → Except String HistogramRec

/-- The triple-nested count accumulation of `get_subject_stats`. -/
def histAccum (works : List HistWorkRec) : pyDict Int :=
  works.foldl (fun d w =>
    w.markNumbers.foldl (fun d mn =>
      mn.marks.foldl (fun d mk =>
        pyDictAddInt d (pyStrOpt mk.value) (mk.count.getD 0)) d) d) []

/-- `get_subject_stats`. -/
def getSubjectStats (env : HEnv) (quarter : Int) (subjectId : Int)
    (studyYear : Option Int) (now : PyDateTime) :
    Except String (pyDict Int) :=
  if ¬ (quarter = 1 ∨ quarter = 2 ∨ quarter = 3 ∨ quarter = 4) then
    .error "ValueError: Номер четверти должен быть от 1 до 4"
  else
    match (match env.periods with
      | .error _ => none
      | .ok ps => resolveSync quarter studyYear now ps) with
    | none => .ok []
    | some pd =>
      match env.subjHistogram pd.id subjectId with
      | .error _ => .ok []
      | .ok h => .ok (histAccum h.works)

/-! ## `get_class_ranking` / `get_subject_ranking` -/

structure RankView where
  name : String
  avg_grade : ℚ
  marks_count : Nat
deriving DecidableEq

structure RankEnv where
  periods : Except String (List RawPeriodRec)
  subjMarks : String → String → Except String (List RawSubjMark)
  groupStudents : Except String (List RawPersonRec)

/-- `[float(mark['value']) for mark in marks if mark.get('value', '')
    .replace('.', '', 1).isdigit()]`. -/
def numericGradesQ (ms : List RawSubjMark) : List ℚ :=
  ms.filterMap (fun m =>
    if pyNumCheck (m.value.getD "") then some (parseDecimalQ (m.value.getD ""))
    else none)

/-- One ranking record: `round(mean or 0, 2)` and the grade count. -/
def mkRankEntry (name : String) (grades : List ℚ) : RankView where
  name := name
  avg_grade := pyRound2 (if grades.isEmpty then 0 else qMean grades)
  marks_count := grades.length

/-- The descending stable sort `sort(key=avg_grade, reverse=True)`. -/
def sortRankingDesc (l : List RankView) : List RankView :=
  List.insertionSort (fun a b => b.avg_grade ≤ a.avg_grade) l

/-- The grade list `get_class_ranking` accumulates for one student: the
    numeric marks the gateway reports for that student on each cached
    subject, in subject-cache order (a failed per-subject query
    contributes nothing). -/
def classGrades (env : RankEnv) (studentId : String)
    (subjCache : pyDict String) : List ℚ :=
  ((subjCache.map (fun p => p.1)).map (fun subjId =>
    match env.subjMarks studentId subjId with
    | .error _ => ([] : List ℚ)
    | .ok ms => numericGradesQ ms)).flatten

/-- `get_class_ranking`. -/
def getClassRanking (env : RankEnv) (students subjCache : pyDict String)
    (quarter : Int) (studyYear : Option Int) (now : PyDateTime) :
    Except String (List RankView) :=
  if ¬ (quarter = 1 ∨ quarter = 2 ∨ quarter = 3 ∨ quarter = 4) then
    .error "ValueError: Номер четверти должен быть от 1 до 4"
  else
    match (match env.periods with
      | .error _ => none
      | .ok ps => resolveSync quarter studyYear now ps) with
    | none => .ok []
    | some _ =>
      let ranking := students.map (fun st =>
        mkRankEntry st.2 (classGrades env st.1 subjCache))
      .ok (sortRankingDesc ranking)

/-- `get_subject_ranking`. -/
def getSubjectRanking (env : RankEnv) (students subjCache : pyDict String)
    (quarter : Int) (subjectId : Int) (studyYear : Option Int)
    (now : PyDateTime) : Except String (List RankView) :=
  if ¬ (quarter = 1 ∨ quarter = 2 ∨ quarter = 3 ∨ quarter = 4) then
    .error "ValueError: Номер четверти должен быть от 1 до 4"
  else
    match (match env.periods with
      | .error _ => none
      | .ok ps => resolveSync quarter studyYear now ps) with
    | none => .ok []
    | some _ =>
      if ¬ pyContains subjCache (toString subjectId) then .ok []
      else
        match (if students.isEmpty then
            (match env.groupStudents with
              | .error _ => none
              | .ok gs =>
                some (gs.foldl (fun d s => pyInsert d s.id s.shortName) students))
          else some students) with
        | none => .ok []
        | some students2 =>
          let ranking := students2.filterMap (fun st =>
            match env.subjMarks st.1 (toString subjectId) with
            | .error _ => none
            | .ok ms => some (mkRankEntry st.2 (numericGradesQ ms)))
          .ok (sortRankingDesc ranking)

/-! ## `get_last_marks` -/

/-- A record of `get_person_marks`. -/
structure RawPersonMark where
  lesson : Option String
  work : Option String
  date : Option String
  value : Option String
deriving DecidableEq

structure SubjRefRec where
  id : Option String
deriving DecidableEq

structure InfoWorkRec where
  id : Option String
  workType : Option String
deriving DecidableEq

/-- A `get_lesson_info` response (empty record = `{}`). -/
structure RawLessonInfo where
  subject : Option SubjRefRec
  title : Option String
  works : List InfoWorkRec
deriving DecidableEq

structure MarkInfoView where
  subject : String
  work_type : String
  lesson_title : String
  mark : String
  class_distribution : pyDict Int
  date : String
deriving DecidableEq

/-- A `get_marks_histogram` response: `markNumbers` is top-level. -/
structure WorkHistogramRec where
  markNumbers : List MarkNumberRec
deriving DecidableEq

structure LMEnv where
  personMarks : Option (List RawPersonMark)
  lessonInfo : String → RawLessonInfo
  workHistogram : String → Option WorkHistogramRec

def emptyLessonInfo : RawLessonInfo := ⟨none, none, []⟩

/-- `_get_lesson_info` as seen by `get_last_marks`: invalid ids give the
    empty record (caching is invisible to a single call). -/
def lessonInfoOf (env : LMEnv) (lid : String) : RawLessonInfo :=
  if lid = "" ∨ lid = "0" then emptyLessonInfo else env.lessonInfo lid

/-- The two-format date parse with `datetime.now()` as last resort. -/
def parseMarkDate (now : PyDateTime) (s : String) : PyDateTime :=
  ((parseYmdHmsFrac s).or (parseYmdHms s)).getD now

/-- Truthiness of the optional int argument (`0` and `None` are falsy). -/
def pyTruthyInt : Option Int → Bool
  | none => false
  | some n => n != 0

/-- `str(lesson_data.get('subject', {}).get('id')) if
    lesson_data.get('subject') else None`. -/
def subjectIdFromLesson (info : RawLessonInfo) : Option String :=
  info.subject.map (fun s => pyStrOpt s.id)

/-- The filter `subject_id and subject_id_from_mark and str(subject_id) !=
    subject_id_from_mark`. -/
def lastMarksSkip (env : LMEnv) (sid : Option Int) (m : RawPersonMark) : Bool :=
  let info := lessonInfoOf env (m.lesson.getD "0")
  match subjectIdFromLesson info with
  | none => false
  | some sifm =>
    pyTruthyInt sid && sifm != "" &&
      (toString (sid.getD 0) != sifm)

/-- The histogram summation of `get_last_marks`. -/
def markDistribution (h : WorkHistogramRec) : pyDict Int :=
  h.markNumbers.foldl (fun d mn =>
    mn.marks.foldl (fun d mk =>
      pyDictAddInt d (pyStrOpt mk.value) (mk.count.getD 0)) d) []

/-- One emitted record of `get_last_marks`. -/
def buildMarkInfo (env : LMEnv) (subjCache wtCache : pyDict String)
    (now : PyDateTime) (m : RawPersonMark) : MarkInfoView :=
  let lid := m.lesson.getD "0"
  let wid := m.work.getD "0"
  let info := lessonInfoOf env lid
  let sifm := subjectIdFromLesson info
  let subjName :=
    match sifm with
    | none => "Неизвестный предмет"
    | some s =>
      if s ≠ "" then (pyLookup subjCache s).getD "Неизвестный предмет"
      else "Неизвестный предмет"
  let lessonTitle :=
    if info.subject.isSome then
      (match info.title with
        | none => "Неизвестная тема"
        | some t => if t = "" then "Неизвестная тема" else t)
    else "Неизвестная тема"
  let workType :=
    if info.subject.isSome then
      (match info.works.find? (fun w => pyStrOpt w.id == wid) with
        | none => "Неизвестный тип"
        | some w => (pyLookup wtCache (w.workType.getD "0")).getD
            "Неизвестный тип")
    else "Неизвестный тип"
  let dist :=
    if wid ≠ "0" then
      (match env.workHistogram wid with
        | none => []
        | some h => markDistribution h)
    else []
  { subject := subjName
    work_type := workType
    lesson_title := lessonTitle
    mark := m.value.getD "Нет оценки"
    class_distribution := dist
    date := formatDmy (parseMarkDate now (m.date.getD "1970-01-01")) }

/-- `get_last_marks`. -/
def getLastMarks (env : LMEnv) (subjCache wtCache : pyDict String)
    (now : PyDateTime) (count : Nat) (subjectId : Option Int) :
    List MarkInfoView :=
  let sid :=
    match subjectId with
    | none => none
    | some v =>
      if v ≠ 0 ∧ ¬ pyContains subjCache (toString v) then none else some v
  match env.personMarks with
  | none => []
  | some marks =>
    let sorted := List.insertionSort
      (fun a b =>
        dtMicro (parseMarkDate now (b.date.getD "1970-01-01")) ≤
          dtMicro (parseMarkDate now (a.date.getD "1970-01-01"))) marks
    ((sorted.take count).filter (fun m => ¬ lastMarksSkip env sid m)).map
      (buildMarkInfo env subjCache wtCache now)

/-- A gateway whose raw schedule query always raises. -/
def c2FailEnv : SEnv := ⟨fun _ => .error "ConnectionError"⟩

/-- An empty formatter state. -/
def emptyFmtState : FmtState := ⟨[], [], [], []⟩

def sampleDate : PyDateTime := ⟨2024, 5, 6, 0, 0, 0, 0⟩

/-- A raw lesson with no optional field set. -/
def blankLesson : RawLessonRec :=
  ⟨none, none, none, [], none, none, none, none, none, none, [], none, none⟩

/-- A raw day with only a subject table and no collections. -/
def blankDay : RawDayRec :=
  ⟨some "2024-05-06T00:00:00", [⟨"S1", "Математика"⟩], [], [], [], [], [], [],
   [], []⟩

/-- First occurrence of the duplicated lesson id refers to a subject
    missing from the day's subject table. -/
def c3LessonA : RawLessonRec :=
  { blankLesson with id := some "L1", subjectId := some "S9", number := some 1 }

/-- Second occurrence of the same lesson id, with a listed subject. -/
def c3LessonB : RawLessonRec :=
  { blankLesson with id := some "L1", subjectId := some "S1", number := some 2 }

def c3Day : RawDayRec := { blankDay with lessons := [c3LessonA, c3LessonB] }

def c3Env : SEnv := ⟨fun _ => .ok ⟨[c3Day]⟩⟩

/-- Day tables holding one homework-typed Workitem whose text is the
    placeholder "НЕТ" (strips and lowercases to "нет"). -/
def c4Tables : DayTables :=
  buildDayTables "P1"
    { blankDay with
      homeworks := [⟨"W1", some "Homework", some " НЕТ ", [], none, none⟩]
      works := [⟨"W1", some "Homework"⟩] }

def c4Lesson : RawLessonRec :=
  { blankLesson with id := some "L1", subjectId := some "S1", works := ["W1"] }

/-- A lesson whose building and place are present but blank strings. -/
def c8LessonBlank : RawLessonRec :=
  { blankLesson with
    id := some "L1"
    subjectId := some "S1"
    building := some ""
    place := some "" }

def c8Day : RawDayRec := { blankDay with lessons := [c8LessonBlank] }

def c8Env : SEnv := ⟨fun _ => .ok ⟨[c8Day]⟩⟩

/-- A lesson with building and place absent and a floor given. -/
def c8LessonMissing : RawLessonRec :=
  { blankLesson with
    id := some "L1"
    subjectId := some "S1"
    floor := some "2" }

/-- A Quarter record with ordinal 2 (the third quarter). -/
def c6Period : RawPeriodRec :=
  ⟨some "Quarter", some 2, some "2024-09-02T00:00:00",
   some "2024-10-25T23:59:59", some 2024, some "303", some "3 четверть"⟩

def c6Cache : pyDict String := [("10", "Math"), ("20", "Art")]

def c6LessonM : RawLessonRec :=
  { blankLesson with id := some "L1", subjectId := some "10" }

def c6LessonA : RawLessonRec :=
  { blankLesson with id := some "L2", subjectId := some "20" }

def c6Day : RawDayRec :=
  { blankDay with
    date := some "2024-09-10T00:00:00"
    subjects := []
    lessons := [c6LessonM, c6LessonA] }

/-- Final-marks gateway: three numeric grades for Math, none for Art. -/
def c6Env : FEnv where
  periods := .ok [c6Period]
  getScheduleRange := fun _ _ => .ok ⟨[c6Day]⟩
  subjMarks := fun _ sid =>
    if sid = "10" then .ok [⟨some "4"⟩, ⟨some "5"⟩, ⟨some "5"⟩] else .ok []

def c6Res : List FinalView :=
  match (getFormattedFinalMarks c6Env "P1" c6Cache 3 none c1Now).1 with
  | .ok r => r
  | .error _ => []

/-- A day whose date string carries fractional seconds, which the
    unguarded `%Y-%m-%dT%H:%M:%S` parse rejects. -/
def c7BadDay : RawDayRec :=
  { blankDay with date := some "2024-09-10T00:00:00.500" }

def c7Env : FEnv where
  periods := .ok [c1QuarterPeriod]
  getScheduleRange := fun _ _ => .ok ⟨[c7BadDay]⟩
  subjMarks := fun _ _ => .ok []

def c7HEnv : HEnv where
  periods := .ok [c1QuarterPeriod]
  subjHistogram := fun _ _ => .ok ⟨[]⟩

def c7RankEnv : RankEnv where
  periods := .ok [c1QuarterPeriod]
  subjMarks := fun _ _ => .ok []
  groupStudents := .ok []

def laterDate : PyDateTime := ⟨2024, 5, 7, 0, 0, 0, 0⟩

/-- A formatter state whose caches already hold entries that a later
    merge must not overwrite. -/
def c9State : FmtState :=
  { emptyFmtState with
    subjectCache := [("S1", "Старое имя")]
    teacherCache := [("T1", ⟨"Стар. И.И.", "", "Неизвестно", "", "Неизвестно"⟩)] }

/-- A day that recarries subject S1 under a new name and teacher T1. -/
def c9Day : RawDayRec :=
  { blankDay with
    subjects := [⟨"S1", "Новое имя"⟩]
    teachers := [⟨⟨"T1", "Нов. И.И.", some "Новый Иван Иванович"⟩⟩]
    lessons := [{ blankLesson with id := some "L1", subjectId := some "S1" }] }

def c9Env : SEnv := ⟨fun _ => .ok ⟨[c9Day]⟩⟩

def c10Cache : pyDict String := [("5", "Математика")]

def c10Env : LMEnv where
  personMarks := some [⟨some "L5", some "W5", some "2024-05-06T10:00:00", some "5"⟩]
  lessonInfo := fun _ => ⟨some ⟨some "8"⟩, some "Тема urока", [⟨some "W5", some "Homework"⟩]⟩
  workHistogram := fun _ => none

/-- A schedule gateway with an empty feed, for the date-order validation. -/
def c7SEnv : SEnv := ⟨fun _ => .ok ⟨[]⟩⟩

/-- Spec-side predicate (claim C6, written from the spec's words): every
    final-marks record keeps only grade strings passing the numeric test
    (hence non-negative values), reports `Нет оценок` exactly on an empty
    grade list and otherwise the mean rounded to one decimal, and the
    records are sorted by subject name. -/
def finalMarksSpecOk (res : List FinalView) : Prop :=
  (∀ rec ∈ res,
    (∀ g ∈ rec.grades, pyNumCheck g = true ∧ 0 ≤ parseDecimalQ g) ∧
    (rec.grades = [] → rec.average = "Нет оценок") ∧
    (rec.grades ≠ [] →
      rec.average = pyRound1Str (qMean (rec.grades.map parseDecimalQ)))) ∧
  List.Pairwise (fun a b => pyStrLe a.name b.name = true) res

/-! ## Proofs -/

section DictProofs

variable {α : Type}

lemma pyContains_iff (d : pyDict α) (k : String) :
    pyContains d k = true ↔ ∃ p ∈ d, p.1 = k := by
  simp [pyContains, List.any_eq_true, beq_iff_eq]

lemma pyLookup_map_replace (d : pyDict α) (k : String) (v : α)
    (h : pyContains d k = true) :
    pyLookup (d.map (fun p => if p.1 == k then (k, v) else p)) k = some v := by
  induction d with
  | nil => simp [pyContains] at h
  | cons p rest ih =>
    by_cases hp : p.1 == k
    · simp [pyLookup, List.find?, hp]
    · have h2 : pyContains rest k = true := by
        simpa [pyContains, hp] using h
      simpa [pyLookup, List.find?, hp] using ih h2

lemma pyLookup_append_single (d : pyDict α) (k : String) (v : α)
    (h : pyContains d k = false) :
    pyLookup (d ++ [(k, v)]) k = some v := by
  induction d with
  | nil => simp [pyLookup, List.find?]
  | cons p rest ih =>
    have hp : (p.1 == k) = false := by
      by_contra hc
      simp only [Bool.not_eq_false] at hc
      simp [pyContains, hc] at h
    have h2 : pyContains rest k = false := by
      simpa [pyContains, hp] using h
    simpa [pyLookup, List.find?, hp] using ih h2

lemma pyLookup_pyInsert_self (d : pyDict α) (k : String) (v : α) :
    pyLookup (pyInsert d k v) k = some v := by
  unfold pyInsert
  by_cases h : pyContains d k
  · rw [if_pos h]
    exact pyLookup_map_replace d k v h
  · rw [if_neg h]
    exact pyLookup_append_single d k v (by simpa using h)

lemma pyLookup_pyInsert_fresh (d : pyDict α) (k k2 : String) (v : α)
    (hk2 : pyContains d k2 = false) (hk : pyContains d k = true) :
    pyLookup (pyInsert d k2 v) k = pyLookup d k := by
  unfold pyInsert
  rw [if_neg (by simp [hk2])]
  induction d with
  | nil => simp [pyContains] at hk
  | cons p rest ih =>
    by_cases hp : p.1 == k
    · simp [pyLookup, List.find?, hp]
    · have h2 : pyContains rest k = true := by
        simpa [pyContains, hp] using hk
      have h3 : pyContains rest k2 = false := by
        by_contra hc
        rw [Bool.not_eq_false] at hc
        obtain ⟨q, hqmem, hqk⟩ := (pyContains_iff rest k2).mp hc
        have hcons : pyContains (p :: rest) k2 = true :=
          (pyContains_iff _ _).mpr ⟨q, by simp [hqmem], hqk⟩
        rw [hcons] at hk2
        cases hk2
      simpa [pyLookup, List.find?, hp] using ih h3 h2

lemma pyContains_pyInsert_mono (d : pyDict α) (k k2 : String) (v : α)
    (hk : pyContains d k = true) :
    pyContains (pyInsert d k2 v) k = true := by
  obtain ⟨p, hmem, hpk⟩ := (pyContains_iff d k).mp hk
  unfold pyInsert
  by_cases h : pyContains d k2
  · rw [if_pos h, pyContains_iff]
    by_cases hpk2 : p.1 = k2
    · exact ⟨(k2, v), List.mem_map.mpr ⟨p, hmem, by simp [hpk2]⟩,
        by rw [← hpk2, hpk]⟩
    · exact ⟨p, List.mem_map.mpr ⟨p, hmem, by simp [hpk2]⟩, hpk⟩
  · rw [if_neg h, pyContains_iff]
    exact ⟨p, by simp [hmem], hpk⟩

/-- A fold whose every step either leaves the dictionary unchanged or
    inserts a key that is absent preserves every present binding. -/
lemma foldl_insertIfAbsent_preserves {β : Type} (step : pyDict α → β → pyDict α)
    (hstep : ∀ c b, step c b = c ∨
      ∃ k2 v, pyContains c k2 = false ∧ step c b = pyInsert c k2 v) :
    ∀ (l : List β) (c : pyDict α) (k : String), pyContains c k = true →
      pyContains (l.foldl step c) k = true ∧
      pyLookup (l.foldl step c) k = pyLookup c k := by
  intro l
  induction l with
  | nil => intro c k hk; exact ⟨hk, rfl⟩
  | cons b rest ih =>
    intro c k hk
    rcases hstep c b with h | ⟨k2, v, hfresh, hins⟩
    · simpa [List.foldl_cons, h] using ih c k hk
    · have hk2 : pyContains (step c b) k = true := by
        rw [hins]; exact pyContains_pyInsert_mono c k k2 v hk
      have hlk : pyLookup (step c b) k = pyLookup c k := by
        rw [hins]; exact pyLookup_pyInsert_fresh c k k2 v hfresh hk
      have := ih (step c b) k hk2
      exact ⟨this.1, by rw [List.foldl_cons, this.2, hlk]⟩

end DictProofs

section ResolverProofs

variable (check : RawPeriodRec → Option PeriodData) (now : PyDateTime)

lemma updateClosest_inv (acc : Option (PeriodData × Nat)) (pd : PeriodData)
    (hinv : ∀ c m, acc = some (c, m) → m = dtDiffAbs c.start now) :
    ∀ c m, updateClosest acc pd now = some (c, m) → m = dtDiffAbs c.start now := by
  intro c m hacc
  cases acc with
  | none =>
    simp only [updateClosest, Option.some.injEq, Prod.mk.injEq] at hacc
    rw [← hacc.1, ← hacc.2]
  | some cm =>
    obtain ⟨c0, m0⟩ := cm
    simp only [updateClosest] at hacc
    split at hacc
    · simp only [Option.some.injEq, Prod.mk.injEq] at hacc
      rw [← hacc.1, ← hacc.2]
    · simp only [Option.some.injEq, Prod.mk.injEq] at hacc
      rw [← hacc.1, ← hacc.2]
      exact hinv c0 m0 rfl

lemma updateClosest_isSome (acc : Option (PeriodData × Nat)) (pd : PeriodData) :
    ∃ c m, updateClosest acc pd now = some (c, m) := by
  cases acc with
  | none => exact ⟨pd, _, rfl⟩
  | some cm =>
    obtain ⟨c0, m0⟩ := cm
    by_cases hlt : dtDiffAbs pd.start now < m0
    · exact ⟨pd, dtDiffAbs pd.start now, by simp [updateClosest, hlt]⟩
    · exact ⟨c0, m0, by simp [updateClosest, hlt]⟩

lemma resolveLoop_eq_none : ∀ (ps : List RawPeriodRec) (acc : Option (PeriodData × Nat)),
    resolveLoop check now ps acc = none ↔ (acc = none ∧ ps.filterMap check = []) := by
  intro ps
  induction ps with
  | nil =>
    intro acc
    cases acc <;> simp [resolveLoop]
  | cons p rest ih =>
    intro acc
    cases hc : check p with
    | none => simp [resolveLoop, hc, ih, List.filterMap_cons]
    | some pd =>
      by_cases hcont : periodContains now pd
      · simp [resolveLoop, hc, hcont, List.filterMap_cons]
      · rcases updateClosest_isSome now acc pd with ⟨c, m, hu⟩
        simp [resolveLoop, hc, hcont, ih, hu, List.filterMap_cons]

lemma resolveLoop_mem : ∀ (ps : List RawPeriodRec) (acc : Option (PeriodData × Nat)) (pd : PeriodData),
    resolveLoop check now ps acc = some pd →
    (∃ m, acc = some (pd, m)) ∨ pd ∈ ps.filterMap check := by
  intro ps
  induction ps with
  | nil =>
    intro acc pd h
    cases acc with
    | none => simp [resolveLoop] at h
    | some cm =>
      simp only [resolveLoop, Option.map_some'] at h
      injection h with h
      exact Or.inl ⟨cm.2, by rw [← h]⟩
  | cons p rest ih =>
    intro acc pd h
    cases hc : check p with
    | none =>
      rcases ih acc pd (by simpa [resolveLoop, hc] using h) with h1 | h1
      · exact Or.inl h1
      · exact Or.inr (by simp [List.filterMap_cons, hc, h1])
    | some pd0 =>
      by_cases hcont : periodContains now pd0
      · simp only [resolveLoop, hc, if_pos hcont, Option.some.injEq] at h
        exact Or.inr (by simp [List.filterMap_cons, hc, h])
      · simp only [resolveLoop, hc, if_neg hcont] at h
        rcases ih _ pd h with h1 | h1
        · rcases h1 with ⟨m, hm⟩
          cases acc with
          | none =>
            simp only [updateClosest, Option.some.injEq, Prod.mk.injEq] at hm
            exact Or.inr (by simp [List.filterMap_cons, hc, hm.1])
          | some cm =>
            obtain ⟨c0, m0⟩ := cm
            simp only [updateClosest] at hm
            split at hm
            · simp only [Option.some.injEq, Prod.mk.injEq] at hm
              exact Or.inr (by simp [List.filterMap_cons, hc, hm.1])
            · simp only [Option.some.injEq, Prod.mk.injEq] at hm
              exact Or.inl ⟨m0, by rw [hm.1]⟩
        · exact Or.inr (by simp [List.filterMap_cons, hc, h1])

lemma resolveLoop_contains : ∀ (ps : List RawPeriodRec) (acc : Option (PeriodData × Nat)),
    (∃ c ∈ ps.filterMap check, periodContains now c) →
    ∃ pd, resolveLoop check now ps acc = some pd ∧ periodContains now pd := by
  intro ps
  induction ps with
  | nil => simp
  | cons p rest ih =>
    intro acc hex
    cases hc : check p with
    | none =>
      simp only [List.filterMap_cons, hc] at hex
      rcases ih acc hex with ⟨pd, h1, h2⟩
      exact ⟨pd, by simpa [resolveLoop, hc] using h1, h2⟩
    | some pd0 =>
      by_cases hcont : periodContains now pd0
      · exact ⟨pd0, by simp [resolveLoop, hc, hcont], hcont⟩
      · simp only [List.filterMap_cons, hc, List.mem_cons] at hex
        rcases hex with ⟨c, hc1 | hc1, hc2⟩
        · exact absurd (hc1 ▸ hc2) hcont
        · rcases ih (updateClosest acc pd0 now) ⟨c, hc1, hc2⟩ with ⟨pd, h1, h2⟩
          exact ⟨pd, by simpa [resolveLoop, hc, hcont] using h1, h2⟩

lemma resolveLoop_min : ∀ (ps : List RawPeriodRec) (acc : Option (PeriodData × Nat)),
    (∀ c ∈ ps.filterMap check, ¬ periodContains now c) →
    (∀ c m, acc = some (c, m) → m = dtDiffAbs c.start now) →
    ∀ pd, resolveLoop check now ps acc = some pd →
      (∀ c m, acc = some (c, m) → dtDiffAbs pd.start now ≤ m) ∧
      (∀ c ∈ ps.filterMap check, dtDiffAbs pd.start now ≤ dtDiffAbs c.start now) := by
  intro ps
  induction ps with
  | nil =>
    intro acc _ hinv pd h
    cases acc with
    | none => simp [resolveLoop] at h
    | some cm =>
      obtain ⟨c0, m0⟩ := cm
      simp only [resolveLoop, Option.map_some'] at h
      injection h with h
      refine ⟨?_, by simp⟩
      intro c m hacc
      injection hacc with hacc
      rw [Prod.mk.injEq] at hacc
      rw [← h, ← hacc.2]
      exact le_of_eq (hinv c0 m0 rfl).symm
  | cons p rest ih =>
    intro acc hnc hinv pd h
    cases hc : check p with
    | none =>
      simp only [resolveLoop, hc] at h
      have hnc2 : ∀ c ∈ rest.filterMap check, ¬ periodContains now c := by
        intro c hcmem
        exact hnc c (by simp [List.filterMap_cons, hc, hcmem])
      have hres := ih acc hnc2 hinv pd h
      refine ⟨hres.1, ?_⟩
      intro c hcmem
      simp only [List.filterMap_cons, hc] at hcmem
      exact hres.2 c hcmem
    | some pd0 =>
      have hnc0 : ¬ periodContains now pd0 :=
        hnc pd0 (by simp [List.filterMap_cons, hc])
      simp only [resolveLoop, hc, if_neg hnc0] at h
      have hnc2 : ∀ c ∈ rest.filterMap check, ¬ periodContains now c := by
        intro c hcmem
        exact hnc c (by simp [List.filterMap_cons, hc, hcmem])
      have hres := ih (updateClosest acc pd0 now) hnc2
        (updateClosest_inv now acc pd0 hinv) pd h
      have hle0 : dtDiffAbs pd.start now ≤ dtDiffAbs pd0.start now ∧
          (∀ c m, acc = some (c, m) → dtDiffAbs pd.start now ≤ m) := by
        cases acc with
        | none =>
          refine ⟨hres.1 pd0 (dtDiffAbs pd0.start now) rfl, ?_⟩
          intro c m hacc
          simp at hacc
        | some cm =>
          obtain ⟨c0, m0⟩ := cm
          by_cases hlt : dtDiffAbs pd0.start now < m0
          · have h1 := hres.1 pd0 (dtDiffAbs pd0.start now)
              (by simp [updateClosest, hlt])
            refine ⟨h1, ?_⟩
            intro c m hacc
            injection hacc with hacc
            rw [Prod.mk.injEq] at hacc
            obtain ⟨rfl, rfl⟩ := hacc
            exact le_of_lt (lt_of_le_of_lt h1 hlt)
          · have h1 := hres.1 c0 m0 (by simp [updateClosest, hlt])
            refine ⟨le_trans h1 (le_of_not_gt hlt), ?_⟩
            intro c m hacc
            injection hacc with hacc
            rw [Prod.mk.injEq] at hacc
            obtain ⟨rfl, rfl⟩ := hacc
            exact h1
      refine ⟨hle0.2, ?_⟩
      intro c hcmem
      simp only [List.filterMap_cons, hc, List.mem_cons] at hcmem
      rcases hcmem with rfl | hcmem
      · exact hle0.1
      · exact hres.2 c hcmem

lemma resolveLoop_selection (ps : List RawPeriodRec) :
    SelectionPolicy check now ps (resolveLoop check now ps none) := by
  refine ⟨?_, ?_, ?_, ?_⟩
  · rw [resolveLoop_eq_none]
    simp
  · intro pd h
    rcases resolveLoop_mem check now ps none pd h with ⟨m, hm⟩ | h1
    · simp at hm
    · exact h1
  · intro hex
    exact resolveLoop_contains check now ps none hex
  · intro hnc pd h
    exact (resolveLoop_min check now ps none hnc (by simp) pd h).2

end ResolverProofs

/-- C1: for quarter numbers 1..4, DnevnikFormatter's period resolver
    considers exactly the records passing its Quarter/Semester ordinal
    filter (with the September-boundary effective-year filter when a study
    year is supplied), prefers a candidate containing the current moment,
    falls back to the candidate with the smallest absolute start-time
    distance, and returns None only when no candidate matches at all; the
    AsyncV2 variant obeys the same selection policy over a filter that
    additionally accepts Trimester and Module records with ordinal q-1. -/
theorem quarterPeriodResolver_selection (q : Int) (sy : Option Int)
    (now : PyDateTime) (ps : List RawPeriodRec)
    (hq : q = 1 ∨ q = 2 ∨ q = 3 ∨ q = 4) :
    SelectionPolicy (checkCandidate syncTypes (syncTypeMap q) sy) now ps
      (resolveSync q sy now ps) ∧
    SelectionPolicy (checkCandidate v2Types (v2TypeMap q) sy) now ps
      (resolveV2 q sy now ps) := by
  constructor
  · rw [resolveSync, if_pos hq]
    exact resolveLoop_selection _ now ps
  · rw [resolveV2, if_pos (by tauto)]
    exact resolveLoop_selection _ now ps

/-- C1 witness: the selection policy instantiated at quarter 1 with a
    single first-quarter record. -/
theorem quarterPeriodResolver_selection_witness :
    ((1 : Int) = 1 ∨ (1 : Int) = 2 ∨ (1 : Int) = 3 ∨ (1 : Int) = 4) ∧
    (SelectionPolicy (checkCandidate syncTypes (syncTypeMap 1) none) c1Now
        [c1QuarterPeriod] (resolveSync 1 none c1Now [c1QuarterPeriod]) ∧
      SelectionPolicy (checkCandidate v2Types (v2TypeMap 1) none) c1Now
        [c1QuarterPeriod] (resolveV2 1 none c1Now [c1QuarterPeriod])) :=
  ⟨by decide,
   quarterPeriodResolver_selection 1 none c1Now [c1QuarterPeriod] (by decide)⟩

/-- C2: a raised raw query or an empty/missing `days` field yields `[]`,
    caches `[]` under the date's ISO string, and a second call returns the
    cached `[]` without another upstream query. -/
theorem scheduleDay_failure_caches_empty (env : SEnv) (personId : String)
    (st : FmtState) (date : PyDateTime)
    (hmiss : pyLookup st.scheduleCache (formatYmd date) = none)
    (hfail : (∃ e, env.getSchedule date = .error e) ∨
      (∃ s, env.getSchedule date = .ok s ∧ s.days = [])) :
    (getFormattedScheduleDay env personId st date).1 = [] ∧
    (getFormattedScheduleDay env personId st date).2.2 = true ∧
    pyLookup (getFormattedScheduleDay env personId st date).2.1.scheduleCache
      (formatYmd date) = some [] ∧
    getFormattedScheduleDay env personId
      (getFormattedScheduleDay env personId st date).2.1 date =
      ([], (getFormattedScheduleDay env personId st date).2.1, false) := by
  have hfirst : getFormattedScheduleDay env personId st date =
      ([], ({ st with scheduleCache := pyInsert st.scheduleCache (formatYmd date) [] } : FmtState), true) := by
    rcases hfail with ⟨e, he⟩ | ⟨s, hs, hdays⟩
    · simp [getFormattedScheduleDay, hmiss, he]
    · simp [getFormattedScheduleDay, hmiss, hs, hdays]
  rw [hfirst]
  have hcached : pyLookup (pyInsert st.scheduleCache (formatYmd date) [])
      (formatYmd date) = some [] := pyLookup_pyInsert_self _ _ _
  refine ⟨rfl, rfl, hcached, ?_⟩
  simp [getFormattedScheduleDay, hcached]

/-- C2 witness: a gateway that raises, called twice on an empty state. -/
theorem scheduleDay_failure_caches_empty_witness :
    (pyLookup emptyFmtState.scheduleCache (formatYmd sampleDate) = none ∧
      (∃ e, c2FailEnv.getSchedule sampleDate = .error e)) ∧
    ((getFormattedScheduleDay c2FailEnv "P1" emptyFmtState sampleDate).1 = [] ∧
     (getFormattedScheduleDay c2FailEnv "P1" emptyFmtState sampleDate).2.2 = true ∧
     pyLookup (getFormattedScheduleDay c2FailEnv "P1" emptyFmtState
        sampleDate).2.1.scheduleCache (formatYmd sampleDate) = some [] ∧
     getFormattedScheduleDay c2FailEnv "P1"
        (getFormattedScheduleDay c2FailEnv "P1" emptyFmtState sampleDate).2.1
        sampleDate =
        ([], (getFormattedScheduleDay c2FailEnv "P1" emptyFmtState
          sampleDate).2.1, false)) :=
  ⟨⟨rfl, ⟨"ConnectionError", rfl⟩⟩,
   scheduleDay_failure_caches_empty c2FailEnv "P1" emptyFmtState sampleDate rfl
     (Or.inl ⟨"ConnectionError", rfl⟩)⟩

lemma buildLessonView_lesson_id (wt : pyDict String) (tables : DayTables)
    (l : RawLessonRec) :
    (buildLessonView wt tables l).lesson_id = l.id.getD "0" := rfl

lemma processLessons_id_not_seen (wt : pyDict String) (tables : DayTables)
    (dts : List RawTeacherRec) :
    ∀ (ls : List RawLessonRec) (seen : List String) (tc : pyDict TeacherInfo),
      ∀ v ∈ (processLessons wt tables dts ls seen tc).1, v.lesson_id ∉ seen := by
  intro ls
  induction ls with
  | nil => intro seen tc v hv; simp [processLessons] at hv
  | cons l rest ih =>
    intro seen tc v hv
    by_cases hseen : l.id.getD "0" ∈ seen
    · rw [processLessons, if_pos hseen] at hv
      exact ih seen tc v hv
    · rw [processLessons, if_neg hseen] at hv
      by_cases hsub : pyLookup tables.subjects (l.subjectId.getD "0") = none
      · rw [if_pos hsub] at hv
        have := ih (l.id.getD "0" :: seen) tc v hv
        intro hc
        exact this (List.mem_cons_of_mem _ hc)
      · rw [if_neg hsub] at hv
        simp only [List.mem_cons] at hv
        rcases hv with rfl | hv
        · rw [buildLessonView_lesson_id]
          exact hseen
        · have := ih (l.id.getD "0" :: seen) _ v hv
          intro hc
          exact this (List.mem_cons_of_mem _ hc)

/-- C3 (amended): within one call, at most one lesson record is emitted
    per lesson id; when the first raw occurrence of the id references a
    listed subject, exactly the record built from that first occurrence is
    emitted; when it does not, no record carries the id — later duplicates
    are skipped either way. -/
theorem processLessons_first_occurrence (wt : pyDict String)
    (tables : DayTables) (dts : List RawTeacherRec) (ls : List RawLessonRec)
    (seen : List String) (tc : pyDict TeacherInfo) (id : String)
    (hid : id ∉ seen) :
    (processLessons wt tables dts ls seen tc).1.filter
        (fun v => v.lesson_id == id) =
      (match ls.find? (fun l => l.id.getD "0" == id) with
        | none => []
        | some l =>
          if (pyLookup tables.subjects (l.subjectId.getD "0")).isSome then
            [buildLessonView wt tables l]
          else []) := by
  induction ls generalizing seen tc with
  | nil => simp [processLessons]
  | cons l rest ih =>
    by_cases heq : l.id.getD "0" = id
    · have hlseen : l.id.getD "0" ∉ seen := heq ▸ hid
      rw [processLessons, if_neg hlseen]
      have hbeq : (l.id.getD "0" == id) = true := beq_iff_eq.mpr heq
      have hfind : (l :: rest).find? (fun l => l.id.getD "0" == id) = some l :=
        List.find?_cons_of_pos rest hbeq
      rw [hfind]
      by_cases hsub : pyLookup tables.subjects (l.subjectId.getD "0") = none
      · rw [if_pos hsub]
        simp only [hsub, Option.isSome_none, Bool.false_eq_true, if_false]
        rw [List.filter_eq_nil_iff]
        intro v hv
        have := processLessons_id_not_seen wt tables dts rest
          (l.id.getD "0" :: seen) tc v hv
        simp only [beq_iff_eq]
        intro hc
        exact this (by rw [hc, ← heq]; exact List.mem_cons_self _ _)
      · rw [if_neg hsub]
        have hsome : (pyLookup tables.subjects (l.subjectId.getD "0")).isSome := by
          rcases h : pyLookup tables.subjects (l.subjectId.getD "0") with - | w
          · exact absurd h hsub
          · simp
        simp only [hsome, if_true]
        rw [List.filter_cons]
        have hkeep : ((buildLessonView wt tables l).lesson_id == id) = true := by
          rw [buildLessonView_lesson_id]
          exact beq_iff_eq.mpr heq
        rw [if_pos hkeep]
        congr 1
        rw [List.filter_eq_nil_iff]
        intro v hv
        have := processLessons_id_not_seen wt tables dts rest
          (l.id.getD "0" :: seen) _ v hv
        simp only [beq_iff_eq]
        intro hc
        exact this (by rw [hc, ← heq]; exact List.mem_cons_self _ _)
    · have hfind : (l :: rest).find? (fun l => l.id.getD "0" == id) =
          rest.find? (fun l => l.id.getD "0" == id) := by
        rw [List.find?, beq_eq_false_iff_ne.mpr heq]
      rw [hfind]
      by_cases hseen : l.id.getD "0" ∈ seen
      · rw [processLessons, if_pos hseen]
        exact ih seen tc hid
      · rw [processLessons, if_neg hseen]
        have hid2 : id ∉ l.id.getD "0" :: seen := by
          intro hc
          rcases List.mem_cons.mp hc with hc | hc
          · exact heq hc.symm
          · exact hid hc
        by_cases hsub : pyLookup tables.subjects (l.subjectId.getD "0") = none
        · rw [if_pos hsub]
          exact ih _ tc hid2
        · rw [if_neg hsub]
          rw [List.filter_cons]
          have hdrop : ((buildLessonView wt tables l).lesson_id == id) = false := by
            rw [buildLessonView_lesson_id]
            exact beq_eq_false_iff_ne.mpr heq
          rw [if_neg (by rw [hdrop]; exact Bool.false_ne_true)]
          exact ih _ _ hid2

/-- C3 witness: a feed whose duplicated id's first occurrence has a
    listed subject yields exactly the record built from it. -/
theorem processLessons_first_occurrence_witness :
    (("L1" : String) ∉ ([] : List String)) ∧
    (processLessons [] (buildDayTables "P1" c3Day) [] [c3LessonB, c3LessonA]
        [] []).1.filter (fun v => v.lesson_id == "L1") =
      [buildLessonView [] (buildDayTables "P1" c3Day) c3LessonB] :=
  ⟨by decide,
   by
    have h := processLessons_first_occurrence [] (buildDayTables "P1" c3Day)
      [] [c3LessonB, c3LessonA] [] [] "L1" (by decide)
    rw [h]
    decide⟩

/-- C3 counterexample: the raw feed of one day holds two lessons sharing
    id "L1", yet the reconciled schedule emits no record with that id
    (the first occurrence names an unlisted subject, and the duplicate
    suppression also discards the valid second occurrence). -/
theorem scheduleDay_dedup_cex :
    c3Day.lessons.countP (fun l => l.id == some "L1") = 2 ∧
    (getFormattedScheduleDay c3Env "P1" emptyFmtState sampleDate).1.countP
      (fun v => v.lesson_id == "L1") = 0 := by
  constructor
  · decide
  · decide

/-- C4: placeholder homework texts ("нет", "нет задания", "-", ".", after
    stripping and lowercasing) never reach the collected homework texts,
    and a lesson left with no homework text and no homework files gets the
    literal "Нет задания". -/
theorem homework_placeholder_excluded (wt : pyDict String)
    (tables : DayTables) (lesson : RawLessonRec) :
    (∀ t ∈ collectHomeworkTexts tables lesson.works,
      t ≠ "" ∧ pyLower t ∉ hwPlaceholders) ∧
    ((collectHomeworkTexts tables lesson.works = [] ∧
      collectHomeworkFiles tables lesson.works = []) →
      (buildLessonView wt tables lesson).homework = "Нет задания") := by
  constructor
  · intro t ht
    rw [collectHomeworkTexts, List.mem_filterMap] at ht
    obtain ⟨wid, -, hf⟩ := ht
    rw [Option.bind_eq_some] at hf
    obtain ⟨hw, -, hf⟩ := hf
    rw [homeworkTextOf] at hf
    by_cases htyp : hw.type ≠ some "Homework"
    · rw [if_pos htyp] at hf; cases hf
    · rw [if_neg htyp] at hf
      simp only at hf
      by_cases hcond : pyStrip (pyOrEmpty hw.text) ≠ "" ∧
          pyLower (pyStrip (pyOrEmpty hw.text)) ∉ hwPlaceholders
      · rw [if_pos hcond] at hf
        injection hf with hf
        exact hf ▸ hcond
      · rw [if_neg hcond] at hf; cases hf
  · rintro ⟨h1, h2⟩
    simp only [buildLessonView, h1, h2]
    decide

/-- C4 witness: a lesson whose only homework item carries the text
    " НЕТ " ends with homework "Нет задания". -/
theorem homework_placeholder_excluded_witness :
    (collectHomeworkTexts c4Tables c4Lesson.works = [] ∧
      collectHomeworkFiles c4Tables c4Lesson.works = []) ∧
    (buildLessonView [] c4Tables c4Lesson).homework = "Нет задания" :=
  ⟨⟨by decide, by decide⟩,
   (homework_placeholder_excluded [] c4Tables c4Lesson).2 ⟨by decide, by decide⟩⟩

/-- C8 counterexample: a lesson whose building and place are present but
    blank produces an empty classroom string, not the placeholder. -/
theorem classroom_blank_cex :
    c8LessonBlank.building = some "" ∧ c8LessonBlank.place = some "" ∧
    (getFormattedScheduleDay c8Env "P1" emptyFmtState sampleDate).1.map
      (fun v => v.classroom) = [""] ∧
    ("" : String) ≠ "Не указан" := by
  refine ⟨rfl, rfl, by decide, by decide⟩

/-- C8 (amended): when building and place are both absent from the raw
    record, the classroom is the placeholder "Не указан", with the
    ", этаж N" suffix exactly when a non-empty floor is present. -/
theorem classroom_missing_placeholder (wt : pyDict String)
    (tables : DayTables) (lesson : RawLessonRec)
    (hb : lesson.building = none) (hp : lesson.place = none) :
    (buildLessonView wt tables lesson).classroom =
      (if lesson.floor.getD "" ≠ "" then
        "Не указан, этаж " ++ lesson.floor.getD ""
      else "Не указан") := by
  have hc0 : pyStrip ((none : Option String).getD "Не указан" ++ " " ++
      (none : Option String).getD "Не указан") = "Не указан Не указан" := by
    decide
  simp only [buildLessonView, classroomString, hb, hp, hc0, if_pos rfl,
    if_true, eq_self_iff_true]
  by_cases hf : lesson.floor.getD "" ≠ ""
  · rw [if_pos hf, if_pos hf]
    congr 1
  · rw [if_neg hf, if_neg hf]

/-- C8 witness: building and place absent with floor "2" yields
    "Не указан, этаж 2". -/
theorem classroom_missing_placeholder_witness :
    (c8LessonMissing.building = none ∧ c8LessonMissing.place = none) ∧
    (buildLessonView [] (buildDayTables "P1" blankDay)
      c8LessonMissing).classroom = "Не указан, этаж 2" :=
  ⟨⟨rfl, rfl⟩, by
    rw [classroom_missing_placeholder [] (buildDayTables "P1" blankDay)
      c8LessonMissing rfl rfl]
    decide⟩

section OrderLemmas

lemma charListLe_total : ∀ as bs : List Char,
    charListLe as bs = true ∨ charListLe bs as = true := by
  intro as
  induction as with
  | nil => intro bs; left; cases bs <;> rfl
  | cons a as ih =>
    intro bs
    cases bs with
    | nil => right; rfl
    | cons b bs =>
      rcases Nat.lt_trichotomy a.toNat b.toNat with hlt | heq | hgt
      · left; simp [charListLe, hlt]
      · have h1 : ¬ a.toNat < b.toNat := by omega
        have h2 : ¬ b.toNat < a.toNat := by omega
        rcases ih bs with h | h
        · left; simp [charListLe, h1, h2, h]
        · right; simp [charListLe, h1, h2, h]
      · right; simp [charListLe, hgt]

lemma charListLe_trans : ∀ as bs cs : List Char,
    charListLe as bs = true → charListLe bs cs = true →
    charListLe as cs = true := by
  intro as
  induction as with
  | nil => intro bs cs h1 h2; cases cs <;> rfl
  | cons a as ih =>
    intro bs cs h1 h2
    cases bs with
    | nil => simp [charListLe] at h1
    | cons b bs =>
      cases cs with
      | nil => simp [charListLe] at h2
      | cons c cs =>
        simp only [charListLe] at h1 h2 ⊢
        split_ifs at h1 h2 ⊢ <;>
          first
            | rfl
            | omega
            | exact ih bs cs h1 h2

lemma pyStrLe_total (s t : String) :
    pyStrLe s t = true ∨ pyStrLe t s = true := charListLe_total s.data t.data

lemma pyStrLe_trans {s t u : String} (h1 : pyStrLe s t = true)
    (h2 : pyStrLe t u = true) : pyStrLe s u = true :=
  charListLe_trans s.data t.data u.data h1 h2

lemma parseDecimalQ_nonneg (s : String) : 0 ≤ parseDecimalQ s := by
  rw [parseDecimalQ]
  split
  · positivity
  · positivity
  · exact le_refl 0

lemma pyNumCheck_of_mem_numericGradeStrings (ms : List RawSubjMark) :
    ∀ g ∈ numericGradeStrings ms, pyNumCheck g = true := by
  intro g hg
  rw [numericGradeStrings, List.mem_filterMap] at hg
  obtain ⟨m, -, hf⟩ := hg
  by_cases hc : pyNumCheck (m.value.getD "") = true
  · rw [if_pos hc] at hf
    injection hf with hf
    rw [← hf]
    exact hc
  · rw [if_neg hc] at hf
    cases hf

end OrderLemmas

section MergePreservation

lemma mergeSubjectsIfAbsent_pres (cache subs : pyDict String) (k : String)
    (hk : pyContains cache k = true) :
    pyContains (mergeSubjectsIfAbsent cache subs) k = true ∧
    pyLookup (mergeSubjectsIfAbsent cache subs) k = pyLookup cache k := by
  refine foldl_insertIfAbsent_preserves _ ?_ subs cache k hk
  intro c b
  by_cases hc : pyContains c b.1
  · exact Or.inl (by simp [hc])
  · exact Or.inr ⟨b.1, b.2, by simpa using hc, by simp [hc]⟩

lemma mergeTeachersIfAbsent_pres (cache : pyDict TeacherInfo)
    (ts : List RawTeacherRec) (k : String) (hk : pyContains cache k = true) :
    pyContains (mergeTeachersIfAbsent cache ts) k = true ∧
    pyLookup (mergeTeachersIfAbsent cache ts) k = pyLookup cache k := by
  refine foldl_insertIfAbsent_preserves _ ?_ ts cache k hk
  intro c b
  by_cases hc : pyContains c b.person.id
  · exact Or.inl (by simp [hc])
  · exact Or.inr ⟨b.person.id, teacherInfoOfRaw b, by simpa using hc, by simp [hc]⟩

lemma processLessons_tc_pres (wt : pyDict String) (tables : DayTables)
    (dts : List RawTeacherRec) :
    ∀ (ls : List RawLessonRec) (seen : List String) (tc : pyDict TeacherInfo)
      (k : String), pyContains tc k = true →
      pyContains (processLessons wt tables dts ls seen tc).2.2 k = true ∧
      pyLookup (processLessons wt tables dts ls seen tc).2.2 k = pyLookup tc k := by
  intro ls
  induction ls with
  | nil => intro seen tc k hk; exact ⟨hk, rfl⟩
  | cons l rest ih =>
    intro seen tc k hk
    by_cases h1 : l.id.getD "0" ∈ seen
    · rw [processLessons, if_pos h1]
      exact ih seen tc k hk
    · rw [processLessons, if_neg h1]
      by_cases h2 : pyLookup tables.subjects (l.subjectId.getD "0") = none
      · rw [if_pos h2]
        exact ih _ tc k hk
      · rw [if_neg h2]
        have hm := mergeTeachersIfAbsent_pres tc dts k hk
        have hr := ih (l.id.getD "0" :: seen) (mergeTeachersIfAbsent tc dts) k hm.1
        exact ⟨hr.1, hr.2.trans hm.2⟩

lemma processDays_sc_pres (wt : pyDict String) (pid ds : String) :
    ∀ (days : List RawDayRec) (seen : List String) (sc : pyDict String)
      (tc : pyDict TeacherInfo) (k : String), pyContains sc k = true →
      pyContains (processDays wt pid ds days seen sc tc).2.2.1 k = true ∧
      pyLookup (processDays wt pid ds days seen sc tc).2.2.1 k = pyLookup sc k := by
  intro days
  induction days with
  | nil => intro seen sc tc k hk; exact ⟨hk, rfl⟩
  | cons day rest ih =>
    intro seen sc tc k hk
    by_cases hd : ¬ strStartsWith (day.date.getD "") ds
    · rw [processDays, if_pos hd]
      exact ih seen sc tc k hk
    · rw [processDays, if_neg hd]
      have hm := mergeSubjectsIfAbsent_pres sc
        (buildDayTables pid day).subjects k hk
      have hr := ih
        (processLessons wt (buildDayTables pid day) day.teachers day.lessons seen tc).2.1
        (mergeSubjectsIfAbsent sc (buildDayTables pid day).subjects)
        (processLessons wt (buildDayTables pid day) day.teachers day.lessons seen tc).2.2
        k hm.1
      exact ⟨hr.1, hr.2.trans hm.2⟩

lemma processDays_tc_pres (wt : pyDict String) (pid ds : String) :
    ∀ (days : List RawDayRec) (seen : List String) (sc : pyDict String)
      (tc : pyDict TeacherInfo) (k : String), pyContains tc k = true →
      pyContains (processDays wt pid ds days seen sc tc).2.2.2 k = true ∧
      pyLookup (processDays wt pid ds days seen sc tc).2.2.2 k = pyLookup tc k := by
  intro days
  induction days with
  | nil => intro seen sc tc k hk; exact ⟨hk, rfl⟩
  | cons day rest ih =>
    intro seen sc tc k hk
    by_cases hd : ¬ strStartsWith (day.date.getD "") ds
    · rw [processDays, if_pos hd]
      exact ih seen sc tc k hk
    · rw [processDays, if_neg hd]
      have hl := processLessons_tc_pres wt (buildDayTables pid day) day.teachers
        day.lessons seen tc k hk
      have hr := ih
        (processLessons wt (buildDayTables pid day) day.teachers day.lessons seen tc).2.1
        (mergeSubjectsIfAbsent sc (buildDayTables pid day).subjects)
        (processLessons wt (buildDayTables pid day) day.teachers day.lessons seen tc).2.2
        k hl.1
      exact ⟨hr.1, hr.2.trans hl.2⟩

lemma collectLessonsStep_sc_pres :
    ∀ (ls : List RawLessonRec) (a : CollectMarks) (k : String),
      pyContains a.subjCache k = true →
      pyContains (collectLessonsStep a ls).subjCache k = true ∧
      pyLookup (collectLessonsStep a ls).subjCache k = pyLookup a.subjCache k := by
  intro ls
  induction ls with
  | nil => intro a k hk; exact ⟨hk, rfl⟩
  | cons lesson rest ih =>
    intro a k hk
    cases hid : lesson.id with
    | none => rw [collectLessonsStep, hid]; exact ⟨hk, rfl⟩
    | some lid =>
      rw [collectLessonsStep, hid]
      have hpres : pyContains (if pyContains a.subjCache (lesson.subjectId.getD "0")
            then a.subjCache
            else pyInsert a.subjCache (lesson.subjectId.getD "0")
              (lesson.subjectName.getD "Неизвестный предмет")) k = true ∧
          pyLookup (if pyContains a.subjCache (lesson.subjectId.getD "0")
            then a.subjCache
            else pyInsert a.subjCache (lesson.subjectId.getD "0")
              (lesson.subjectName.getD "Неизвестный предмет")) k =
            pyLookup a.subjCache k := by
        split_ifs with hc
        · exact ⟨hk, rfl⟩
        · exact ⟨pyContains_pyInsert_mono _ k _ _ hk,
            pyLookup_pyInsert_fresh _ k _ _ (by simpa using hc) hk⟩
      exact ⟨(ih _ k hpres.1).1, (ih _ k hpres.1).2.trans hpres.2⟩

lemma collectMarksData_sc_pres (pid : String) (startD endD : PyDateTime) :
    ∀ (days : List RawDayRec) (acc : CollectMarks) (k : String),
      pyContains acc.subjCache k = true →
      pyContains (collectMarksData pid startD endD days acc).subjCache k = true ∧
      pyLookup (collectMarksData pid startD endD days acc).subjCache k =
        pyLookup acc.subjCache k := by
  intro days
  induction days with
  | nil => intro acc k hk; exact ⟨hk, rfl⟩
  | cons day rest ih =>
    intro acc k hk
    rw [collectMarksData]
    split
    · exact ⟨hk, rfl⟩
    · rename_i dd hp
      by_cases hr : dateOnlyLe startD dd ∧ dateOnlyLe dd endD
      · rw [if_pos hr]
        have h1 := collectLessonsStep_sc_pres day.lessons
          { acc with workTypes := pyUpdate acc.workTypes (pyDictOf (day.workTypes.map (fun w => (w.id, w.name)))) } k hk
        dsimp only
        split
        · exact h1
        · refine ⟨(ih _ k ?_).1, (ih _ k ?_).2.trans h1.2⟩ <;> exact h1.1
      · rw [if_neg hr]
        exact ih acc k hk

lemma subjFold_sc_pres :
    ∀ (subs : List RawSubjectRec) (a : CollectActive) (k : String),
      pyContains a.subjCache k = true →
      pyContains (subs.foldl (fun a2 subject =>
        let subjName := pyStrip subject.name
        if subject.id ≠ "" ∧ subjName ≠ "" ∧
            ¬ pyContains a2.subjCache subject.id then
          { a2 with subjCache := pyInsert a2.subjCache subject.id subjName }
        else a2) a).subjCache k = true ∧
      pyLookup ((subs.foldl (fun a2 subject =>
        let subjName := pyStrip subject.name
        if subject.id ≠ "" ∧ subjName ≠ "" ∧
            ¬ pyContains a2.subjCache subject.id then
          { a2 with subjCache := pyInsert a2.subjCache subject.id subjName }
        else a2) a).subjCache) k = pyLookup a.subjCache k := by
  intro subs
  induction subs with
  | nil => intro a k hk; exact ⟨hk, rfl⟩
  | cons s rest ih =>
    intro a k hk
    simp only [List.foldl_cons]
    by_cases hc : s.id ≠ "" ∧ pyStrip s.name ≠ "" ∧
        ¬ pyContains a.subjCache s.id
    · rw [if_pos hc]
      have hk2 : pyContains (pyInsert a.subjCache s.id (pyStrip s.name)) k = true :=
        pyContains_pyInsert_mono _ k _ _ hk
      have hstep : pyLookup (pyInsert a.subjCache s.id (pyStrip s.name)) k =
          pyLookup a.subjCache k :=
        pyLookup_pyInsert_fresh _ k _ _ (by simpa using hc.2.2) hk
      have := ih { a with subjCache := pyInsert a.subjCache s.id (pyStrip s.name) }
        k hk2
      exact ⟨this.1, this.2.trans hstep⟩
    · rw [if_neg hc]
      exact ih a k hk

lemma lessonFold_sc_pres (day : RawDayRec) :
    ∀ (ls : List RawLessonRec) (a : CollectActive) (k : String),
      pyContains a.subjCache k = true →
      pyContains (ls.foldl (fun a lesson =>
        let sid := lesson.subjectId.getD "0"
        let a1 := { a with active :=
          if sid ∈ a.active then a.active else a.active ++ [sid] }
        day.subjects.foldl (fun a2 subject =>
          let subjName := pyStrip subject.name
          if subject.id ≠ "" ∧ subjName ≠ "" ∧
              ¬ pyContains a2.subjCache subject.id then
            { a2 with subjCache := pyInsert a2.subjCache subject.id subjName }
          else a2) a1) a).subjCache k = true ∧
      pyLookup ((ls.foldl (fun a lesson =>
        let sid := lesson.subjectId.getD "0"
        let a1 := { a with active :=
          if sid ∈ a.active then a.active else a.active ++ [sid] }
        day.subjects.foldl (fun a2 subject =>
          let subjName := pyStrip subject.name
          if subject.id ≠ "" ∧ subjName ≠ "" ∧
              ¬ pyContains a2.subjCache subject.id then
            { a2 with subjCache := pyInsert a2.subjCache subject.id subjName }
          else a2) a1) a).subjCache) k = pyLookup a.subjCache k := by
  intro ls
  induction ls with
  | nil => intro a k hk; exact ⟨hk, rfl⟩
  | cons lesson rest ih =>
    intro a k hk
    simp only [List.foldl_cons]
    have h1 := subjFold_sc_pres day.subjects
      { a with active :=
        if lesson.subjectId.getD "0" ∈ a.active then a.active
        else a.active ++ [lesson.subjectId.getD "0"] } k hk
    have h2 := ih _ k h1.1
    exact ⟨h2.1, h2.2.trans h1.2⟩

lemma collectActiveSubjects_sc_pres (startD finishD : PyDateTime) :
    ∀ (days : List RawDayRec) (acc : CollectActive) (k : String),
      pyContains acc.subjCache k = true →
      pyContains (collectActiveSubjects startD finishD days acc).subjCache k = true ∧
      pyLookup (collectActiveSubjects startD finishD days acc).subjCache k =
        pyLookup acc.subjCache k := by
  intro days
  induction days with
  | nil => intro acc k hk; exact ⟨hk, rfl⟩
  | cons day rest ih =>
    intro acc k hk
    rw [collectActiveSubjects]
    split
    · exact ⟨hk, rfl⟩
    · rename_i dd hp
      by_cases hr : dateOnlyLe startD dd ∧ dateOnlyLe dd finishD
      · rw [if_pos hr]
        have h1 := lessonFold_sc_pres day day.lessons acc k hk
        dsimp only
        exact ⟨(ih _ k h1.1).1, (ih _ k h1.1).2.trans h1.2⟩
      · rw [if_neg hr]
        exact ih acc k hk

end MergePreservation

/-- C9: the three cache-merging operations (schedule-day reconciliation,
    formatted-marks collection, final-marks collection) never overwrite an
    existing subject- or teacher-cache entry: every key already present
    keeps its value. -/
theorem refCache_insert_if_absent :
    (∀ (env : SEnv) (personId : String) (st : FmtState) (date : PyDateTime)
      (k : String), pyContains st.subjectCache k = true →
      pyLookup (getFormattedScheduleDay env personId st date).2.1.subjectCache k =
        pyLookup st.subjectCache k) ∧
    (∀ (env : SEnv) (personId : String) (st : FmtState) (date : PyDateTime)
      (k : String), pyContains st.teacherCache k = true →
      pyLookup (getFormattedScheduleDay env personId st date).2.1.teacherCache k =
        pyLookup st.teacherCache k) ∧
    (∀ (personId : String) (startD endD : PyDateTime) (days : List RawDayRec)
      (acc : CollectMarks) (k : String), pyContains acc.subjCache k = true →
      pyLookup (collectMarksData personId startD endD days acc).subjCache k =
        pyLookup acc.subjCache k) ∧
    (∀ (startD finishD : PyDateTime) (days : List RawDayRec)
      (acc : CollectActive) (k : String), pyContains acc.subjCache k = true →
      pyLookup (collectActiveSubjects startD finishD days acc).subjCache k =
        pyLookup acc.subjCache k) := by
  refine ⟨?_, ?_, ?_, ?_⟩
  · intro env personId st date k hk
    rw [getFormattedScheduleDay]
    cases hcc : pyLookup st.scheduleCache (formatYmd date) with
    | some cached => rfl
    | none =>
      dsimp only
      cases he : env.getSchedule date with
      | error e => rfl
      | ok sched =>
        dsimp only
        by_cases hd : sched.days.isEmpty
        · rw [if_pos hd]
        · rw [if_neg hd]
          exact (processDays_sc_pres st.workTypesCache personId (formatYmd date)
            sched.days [] st.subjectCache st.teacherCache k hk).2
  · intro env personId st date k hk
    rw [getFormattedScheduleDay]
    cases hcc : pyLookup st.scheduleCache (formatYmd date) with
    | some cached => rfl
    | none =>
      dsimp only
      cases he : env.getSchedule date with
      | error e => rfl
      | ok sched =>
        dsimp only
        by_cases hd : sched.days.isEmpty
        · rw [if_pos hd]
        · rw [if_neg hd]
          exact (processDays_tc_pres st.workTypesCache personId (formatYmd date)
            sched.days [] st.subjectCache st.teacherCache k hk).2
  · intro personId startD endD days acc k hk
    exact (collectMarksData_sc_pres personId startD endD days acc k hk).2
  · intro startD finishD days acc k hk
    exact (collectActiveSubjects_sc_pres startD finishD days acc k hk).2

/-- C9 witness: a day recarrying subject S1 and teacher T1 leaves the
    previously cached values untouched. -/
theorem refCache_insert_if_absent_witness :
    (pyContains c9State.subjectCache "S1" = true ∧
      pyContains c9State.teacherCache "T1" = true) ∧
    pyLookup (getFormattedScheduleDay c9Env "P1" c9State
        sampleDate).2.1.subjectCache "S1" = pyLookup c9State.subjectCache "S1" ∧
    pyLookup (getFormattedScheduleDay c9Env "P1" c9State
        sampleDate).2.1.teacherCache "T1" = pyLookup c9State.teacherCache "T1" :=
  ⟨⟨by decide, by decide⟩,
   refCache_insert_if_absent.1 c9Env "P1" c9State sampleDate "S1" (by decide),
   refCache_insert_if_absent.2.1 c9Env "P1" c9State sampleDate "T1" (by decide)⟩

/-- C10: a subject_id absent from the subject cache disables the filter:
    get_last_marks behaves exactly as with subject_id None. -/
theorem lastMarks_unknown_subject_filter (env : LMEnv)
    (subjCache wtCache : pyDict String) (now : PyDateTime) (count : Nat)
    (sid : Int) (h : ¬ pyContains subjCache (toString sid) = true) :
    getLastMarks env subjCache wtCache now count (some sid) =
      getLastMarks env subjCache wtCache now count none := by
  unfold getLastMarks
  by_cases h0 : sid = 0
  · subst h0
    have hc : ¬ ((0 : Int) ≠ 0 ∧ ¬ pyContains subjCache (toString (0 : Int)) = true) :=
      fun hcc => hcc.1 rfl
    have hskip : lastMarksSkip env (some 0) = lastMarksSkip env none := by
      funext m
      unfold lastMarksSkip
      cases subjectIdFromLesson (lessonInfoOf env (m.lesson.getD "0")) with
      | none => rfl
      | some sifm => simp [pyTruthyInt]
    dsimp only
    rw [if_neg hc, hskip]
  · dsimp only
    rw [if_pos ⟨h0, h⟩]

/-- C10 witness: subject id 7 is not cached, and the call equals the
    unfiltered one. -/
theorem lastMarks_unknown_subject_filter_witness :
    (¬ pyContains c10Cache (toString (7 : Int)) = true) ∧
    getLastMarks c10Env c10Cache [] c1Now 5 (some 7) =
      getLastMarks c10Env c10Cache [] c1Now 5 none :=
  ⟨by decide,
   lastMarks_unknown_subject_filter c10Env c10Cache [] c1Now 5 7 (by decide)⟩

/-- C1 counterexample: on a feed holding only a Trimester record, no
    record passes the claim's Quarter/Semester filter — so the claim
    demands a `None` result — yet the cited AsyncV2 resolver returns that
    Trimester period. -/
theorem quarterPeriodResolver_claim_cex :
    List.filterMap (checkCandidate syncTypes (syncTypeMap 1) none)
        [c1TrimesterPeriod] = [] ∧
    resolveV2 1 none c1Now [c1TrimesterPeriod] =
      some ⟨"201", ⟨2024, 9, 2, 0, 0, 0, 0⟩, ⟨2024, 11, 30, 23, 59, 59, 0⟩,
            "1 триместр"⟩ := by
  constructor
  · rfl
  · decide

section RankingShape

end RankingShape

section FinalMarksShape

lemma mkFinalView_avg (env : FEnv) (pid : String) (cache : pyDict String)
    (sid : String) :
    (mkFinalView env pid cache sid).average =
      if ¬ (mkFinalView env pid cache sid).grades.isEmpty
      then pyRound1Str
        (qMean ((mkFinalView env pid cache sid).grades.map parseDecimalQ))
      else "Нет оценок" := rfl

lemma mkFinalView_shape (env : FEnv) (pid : String) (cache : pyDict String)
    (sid : String) :
    (∀ g ∈ (mkFinalView env pid cache sid).grades,
        pyNumCheck g = true ∧ 0 ≤ parseDecimalQ g) ∧
    ((mkFinalView env pid cache sid).grades = [] →
      (mkFinalView env pid cache sid).average = "Нет оценок") ∧
    ((mkFinalView env pid cache sid).grades ≠ [] →
      (mkFinalView env pid cache sid).average =
        pyRound1Str
          (qMean ((mkFinalView env pid cache sid).grades.map parseDecimalQ))) := by
  refine ⟨?_, ?_, ?_⟩
  · intro g hg
    exact ⟨pyNumCheck_of_mem_numericGradeStrings _ g hg, parseDecimalQ_nonneg g⟩
  · intro hnil
    rw [mkFinalView_avg, hnil]
    simp
  · intro hne
    have hc : ¬ (mkFinalView env pid cache sid).grades.isEmpty = true :=
      fun hc => hne (List.isEmpty_iff.mp hc)
    rw [mkFinalView_avg, if_pos hc]

lemma finalMarksSpecOk_nil : finalMarksSpecOk [] :=
  ⟨fun rec hrec => absurd hrec (List.not_mem_nil rec), List.Pairwise.nil⟩

lemma c6_avg_value :
    pyRound1Str (qMean (["4", "5", "5"].map parseDecimalQ)) = "4.7" := by
  have e4 : parseDecimalQ "4" = 4 := by decide
  have e5 : parseDecimalQ "5" = 5 := by decide
  have h0 : (["4", "5", "5"].map parseDecimalQ) = [4, 5, 5] := by
    simp only [List.map_cons, List.map_nil, e4, e5]
  have h1 : qMean [(4 : ℚ), 5, 5] = 14 / 3 := by
    rw [qMean]
    norm_num
  have h2 : roundHalfEven (14 / 3 * 10) = 47 := by
    have h3 : (14 : ℚ) / 3 * 10 = 140 / 3 := by norm_num
    rw [roundHalfEven, h3]
    norm_num
  rw [pyRound1Str, h0, h1, h2]
  decide

end FinalMarksShape

/-- C6: every record of `get_formatted_final_marks` keeps exactly the
    grade strings passing the numeric test (all parsing to non-negative
    rationals), reports `Нет оценок` on an empty grade list and otherwise
    the arithmetic mean rounded to one decimal as a string, and the
    records come sorted by subject name. -/
theorem finalMarks_shape (env : FEnv) (personId : String)
    (subjCache : pyDict String) (quarter : Int) (studyYear : Option Int)
    (now : PyDateTime) (res : List FinalView)
    (h : (getFormattedFinalMarks env personId subjCache quarter studyYear
      now).1 = .ok res) :
    finalMarksSpecOk res := by
  rw [getFormattedFinalMarks] at h
  split at h
  · dsimp only at h; cases h
  · split at h
    · dsimp only at h
      injection h with h
      rw [← h]
      exact finalMarksSpecOk_nil
    · dsimp only at h
      split at h
      · dsimp only at h; cases h
      · dsimp only at h
        injection h with h
        rw [← h]
        constructor
        · intro rec hrec
          have hmem := (List.perm_insertionSort _ _).subset hrec
          rw [List.mem_filterMap] at hmem
          obtain ⟨sid, -, hf⟩ := hmem
          split at hf
          · cases hf
          · injection hf with hf
            rw [← hf]
            exact mkFinalView_shape env personId _ sid
        · haveI : IsTotal FinalView (fun a b => pyStrLe a.name b.name = true) :=
            ⟨fun a b => pyStrLe_total a.name b.name⟩
          haveI : IsTrans FinalView (fun a b => pyStrLe a.name b.name = true) :=
            ⟨fun a b c h1 h2 => pyStrLe_trans h1 h2⟩
          exact List.sorted_insertionSort _ _

/-- C6 witness: on the fixture feed — grades 4, 5, 5 for `Math`, none for
    `Art` — the predicate holds, the records come out as `Art` then
    `Math`, the grade lists are `[]` and `["4","5","5"]`, and the reported
    averages are the sentinel and `"4.7"`. -/
theorem finalMarks_shape_witness :
    finalMarksSpecOk c6Res ∧
    c6Res.map (fun r => r.name) = ["Art", "Math"] ∧
    c6Res.map (fun r => r.grades) = [[], ["4", "5", "5"]] ∧
    c6Res.map (fun r => r.average) = ["Нет оценок", "4.7"] := by
  refine ⟨finalMarks_shape c6Env "P1" c6Cache 3 none c1Now c6Res rfl,
    rfl, rfl, ?_⟩
  have h : c6Res.map (fun r => r.average) =
      ["Нет оценок", pyRound1Str (qMean (["4", "5", "5"].map parseDecimalQ))] :=
    rfl
  rw [h, c6_avg_value]

/-- C7: the caller-misuse validations do raise — a quarter outside 1..4
    in `get_formatted_final_marks`, `get_class_ranking`,
    `get_subject_ranking` and `get_subject_stats`, and an end date before
    the start date in `get_formatted_schedule` — but they are not the only
    raising conditions: with a perfectly valid quarter, a raw day whose
    date string carries fractional seconds makes
    `get_formatted_final_marks` raise a ValueError from the unguarded
    `datetime.strptime` (DnevnikFormatter.py line 1259), refuting the
    claim's exclusivity half. -/
theorem uiValidation_and_malformed_date_raise :
    ((getFormattedFinalMarks c7Env "P1" [] 5 none c1Now).1 =
        .error "ValueError: Номер четверти должен быть от 1 до 4") ∧
    (getClassRanking c7RankEnv [] [] 0 none c1Now =
        .error "ValueError: Номер четверти должен быть от 1 до 4") ∧
    (getSubjectRanking c7RankEnv [] [] 7 1 none c1Now =
        .error "ValueError: Номер четверти должен быть от 1 до 4") ∧
    (getSubjectStats c7HEnv 0 1 none c1Now =
        .error "ValueError: Номер четверти должен быть от 1 до 4") ∧
    (getFormattedSchedule c7SEnv "P1" emptyFmtState laterDate
        (some sampleDate) =
        .error "ValueError: end_date не может быть раньше start_date") ∧
    ((getFormattedFinalMarks c7Env "P1" [("S1", "Математика")] 1 none
        c1Now).1 =
        .error "ValueError: time data does not match format") :=
  ⟨rfl, rfl, rfl, rfl, rfl, rfl⟩

end Dnevnik
